import Mathlib

/-!
# polyfem: parameterization chains, lagged regularisation, time set-up

A shallow embedding of

* `src/polyfem/solver/forms/parameterization/Parameterization.hpp`
  (`Parameterization`, `CompositeParameterization`),
* `src/polyfem/solver/forms/LaggedRegForm.hpp` (`LaggedRegForm`),
* `src/polyfem/solver/OptimizationProblem.hpp` (`OptimizationProblem::post_step`),
* `src/polyfem/state/StateInit.cpp` (`State::init_time` and the contact block
  of `State::init`),

followed by the properties established about them.

Conventions.  `Eigen::VectorXd` is an arbitrary type `V` of vectors wherever the
code only moves vectors around.  In the parameterizations and in
`LaggedRegForm` a `double` is an element of an exact field (`ℚ` for concrete
evaluation, `ℝ` for derivatives).  In `State::init_time` a `double` is an IEEE
754 binary64 value (`Double`: every operation rounds to nearest, ties to even)
and an `int` is a 32-bit two's-complement integer, as it is in
`OptimizationProblem`.  A C++ `throw` is `Except.error`.
-/

namespace polyfem

/-! ## `polyfem/utils/Logger.hpp` -/

/-- The helper `log_and_throw_error(msg)`: it logs `msg` and throws a
`std::runtime_error` carrying it.  Its definition is in `Logger.hpp`; only the
throw is observable here. -/
def log_and_throw_error {α : Type} (msg : String) : Except String α :=
  Except.error msg

namespace solver

/-! ## `Parameterization.hpp` -/

/-- The abstract class `Parameterization`: the pure virtual members `size`,
`eval`, `apply_jacobian` are fields, and the virtual `inverse_eval` is a field
whose default value is the base-class body. -/
structure Parameterization (V : Type) where
  /-- Member `virtual int size(const int x_size) const = 0; // just for verification`. -/
  size : Int → Int
  /-- Member `virtual VectorXd eval(const VectorXd &x) const = 0;`. -/
  eval : V → V
  /-- Member `virtual VectorXd apply_jacobian(const VectorXd &grad_full, const VectorXd &x) const = 0;`. -/
  apply_jacobian : V → V → V
  /-- Member `virtual VectorXd inverse_eval(const VectorXd &y) const`, with the base body
  `log_and_throw_error("Not supported"); return VectorXd();` as default. -/
  inverse_eval : V → Except String V := fun _ => log_and_throw_error "Not supported"

/-- The body of the base-class `Parameterization::inverse_eval`, which a stage
that does not override it inherits. -/
def Parameterization.inverse_eval_base {V : Type} (_y : V) : Except String V :=
  log_and_throw_error "Not supported"

/-- The class `CompositeParameterization`: its only member is the vector of
stages `parameterizations_`. -/
structure CompositeParameterization (V : Type) where
  parameterizations_ : List (Parameterization V)

namespace CompositeParameterization

variable {V : Type}

/-- The default constructor `CompositeParameterization() {}`. -/
def construct_default : CompositeParameterization V :=
  ⟨[]⟩

/-- The constructor
`CompositeParameterization(const std::vector<...> &parameterizations)
  : parameterizations_(parameterizations) {}`.
Construction is given a result type that could carry a failure; the body is
empty, so it stores the stages and returns. -/
def construct (parameterizations : List (Parameterization V)) :
    Except String (CompositeParameterization V) :=
  Except.ok ⟨parameterizations⟩

/-- Method `CompositeParameterization::inverse_eval`:
`log_and_throw_error("Not supported"); return VectorXd();`. -/
def inverse_eval (_c : CompositeParameterization V) (_y : V) : Except String V :=
  log_and_throw_error "Not supported"

/-- Method `CompositeParameterization::eval`: the early return on an empty chain, then
the loop `for (p : parameterizations_) y = p->eval(y);`. -/
def eval (c : CompositeParameterization V) (x : V) : V :=
  if c.parameterizations_.isEmpty then x
  else c.parameterizations_.foldl (fun y p => p.eval y) x

/-- The first loop of `apply_jacobian`:
`for (p : parameterizations_) { ys.emplace_back(y); y = p->eval(y); }`
started from `ys = {}`, `y = x`.  It returns `(ys, y)`. -/
def forward_cache (ps : List (Parameterization V)) (x : V) : List V × V :=
  ps.foldl (fun (s : List V × V) p => (s.1 ++ [s.2], p.eval s.2)) ([], x)

/-- The second loop of `apply_jacobian`:
`for (int i = size - 1; i >= 0; --i) gradv = parameterizations_[i]->apply_jacobian(gradv, ys[i]);`.
The indices run over `size - 1, ..., 0`; both lookups are in range in the
source, and an out-of-range lookup leaves `gradv` as it is. -/
def backward_fold (ps : List (Parameterization V)) (ys : List V) (grad_full : V) : V :=
  (List.range ps.length).reverse.foldl
    (fun gradv i =>
      match ps[i]?, ys[i]? with
      | some p, some y => p.apply_jacobian gradv y
      | _, _ => gradv)
    grad_full

/-- Method `CompositeParameterization::apply_jacobian(x, grad_full)`: the early return
on an empty chain, the forward loop caching every stage's input, the backward
loop over the cached inputs. -/
def apply_jacobian (c : CompositeParameterization V) (x grad_full : V) : V :=
  if c.parameterizations_.isEmpty then grad_full
  else backward_fold c.parameterizations_ (forward_cache c.parameterizations_ x).1 grad_full

/-- The inputs `y_0, ..., y_{n-1}` of the stages of a chain run from `x`:
`y_0 = x`, `y_i = p_i.eval(y_{i-1})`. -/
def stage_inputs : List (Parameterization V) → V → List V
  | [], _ => []
  | p :: rest, x => x :: stage_inputs rest (p.eval x)

end CompositeParameterization

/-! ### The `Parameterization` contract over real vectors -/

/-- Real vectors of every dimension: an `Eigen::VectorXd` with exact real
entries is a dimension `n` together with a point of `ℝ^n`. -/
abbrev RVec : Type :=
  Σ n : ℕ, EuclideanSpace ℝ (Fin n)

/-- The contract of a `Parameterization` ("This parameterize a function
f : x -> y and provides the chain rule with respect to previous gradients"): on
inputs of each dimension `n` the stage is a map `f : ℝ^n → ℝ^m` into one output
dimension `m`, differentiable at every point `x` with Jacobian `J x`, and
`apply_jacobian(g, x)` is the transpose (adjoint) of `J x` applied to `g`. -/
def SatisfiesContract (p : Parameterization RVec) : Prop :=
  ∀ n : ℕ, ∃ (m : ℕ) (f : EuclideanSpace ℝ (Fin n) → EuclideanSpace ℝ (Fin m))
      (J : EuclideanSpace ℝ (Fin n) → (EuclideanSpace ℝ (Fin n) →L[ℝ] EuclideanSpace ℝ (Fin m))),
    ∀ x : EuclideanSpace ℝ (Fin n),
      p.eval ⟨n, x⟩ = ⟨m, f x⟩ ∧ HasFDerivAt f (J x) x ∧
        ∀ g : EuclideanSpace ℝ (Fin m),
          p.apply_jacobian ⟨m, g⟩ ⟨n, x⟩ = ⟨n, ContinuousLinearMap.adjoint (J x) g⟩

/-- The same contract read on a whole chain, with the argument order of
`CompositeParameterization::apply_jacobian(x, grad_full)`. -/
def CompositeSatisfiesContract (c : CompositeParameterization RVec) : Prop :=
  ∀ n : ℕ, ∃ (m : ℕ) (f : EuclideanSpace ℝ (Fin n) → EuclideanSpace ℝ (Fin m))
      (J : EuclideanSpace ℝ (Fin n) → (EuclideanSpace ℝ (Fin n) →L[ℝ] EuclideanSpace ℝ (Fin m))),
    ∀ x : EuclideanSpace ℝ (Fin n),
      c.eval ⟨n, x⟩ = ⟨m, f x⟩ ∧ HasFDerivAt f (J x) x ∧
        ∀ g : EuclideanSpace ℝ (Fin m),
          c.apply_jacobian ⟨n, x⟩ ⟨m, g⟩ = ⟨n, ContinuousLinearMap.adjoint (J x) g⟩

/-- A linear stage: every entry is multiplied by the constant `c`. -/
def scaleStage (c : ℝ) : Parameterization RVec where
  size := fun x_size => x_size
  eval := fun x => ⟨x.1, fun i => c * x.2 i⟩
  apply_jacobian := fun grad_full _x => ⟨grad_full.1, fun i => c * grad_full.2 i⟩

/-- A nonlinear stage: every entry is squared.  Its Jacobian at `x` is the
diagonal matrix with entries `2 * x i`, so the pulled-back gradient has entries
`2 * x i * g i`; a gradient whose dimension differs from that of `x` is outside
the contract and is returned as it is. -/
def squareStage : Parameterization RVec where
  size := fun x_size => x_size
  eval := fun x => ⟨x.1, fun i => x.2 i * x.2 i⟩
  apply_jacobian := fun grad_full x =>
    if h : grad_full.1 = x.1 then
      ⟨x.1, fun i => 2 * x.2 i * grad_full.2 (Fin.cast h.symm i)⟩
    else grad_full

/-! ### Two concrete stages over rational vectors of dynamic size -/

/-- A stage that keeps the first two entries of its input; it reports the
output size 2 whatever the input size. -/
def keepTwo : Parameterization (List ℚ) where
  size := fun _ => 2
  eval := fun x => x.take 2
  apply_jacobian := fun grad_full x => grad_full ++ List.replicate (x.length - 2) 0

/-- A stage on vectors of size 3, which it permutes cyclically; it reports the
output size 3, and on an input of another size it has nothing to permute and
returns the empty vector. -/
def rotateThree : Parameterization (List ℚ) where
  size := fun _ => 3
  eval := fun x =>
    match x with
    | [a, b, c] => [b, c, a]
    | _ => []
  apply_jacobian := fun grad_full _x =>
    match grad_full with
    | [a, b, c] => [c, a, b]
    | _ => []

/-! ## `LaggedRegForm.hpp` -/

/-- The data members of `LaggedRegForm` over a state of dimension `n`:
`Eigen::VectorXd x_lagged_; const double weight_;`. -/
structure LaggedRegForm (K : Type) (n : ℕ) where
  /-- The full variables from the previous lagging solve. -/
  x_lagged_ : Fin n → K
  /-- Weight of the regularization term. -/
  weight_ : K

namespace LaggedRegForm

variable {K : Type} [Field K] {n : ℕ}

/-- Modelled from the spec: the body of `LaggedRegForm::value_unweighted`, which
the header only declares (`LaggedRegForm.cpp` is not among the sources).  The
spec: "value is a quadratic penalty (half the squared distance, scaled by the
weight) between the current vector and the lagged reference vector". -/
def value_unweighted (f : LaggedRegForm K n) (x : Fin n → K) : K :=
  f.weight_ * (1 / 2) * ∑ i, (x i - f.x_lagged_ i) ^ 2

/-- Modelled from the spec: the body of
`LaggedRegForm::first_derivative_unweighted`, which the header only declares.
The spec: "its gradient is linear in the deviation" and, in the end-to-end
scenario, "gradient `2.0 * [1,2,2]`" for weight 2.0 and deviation `[1,2,2]`:
the weight times the deviation from the lagged reference. -/
def first_derivative_unweighted (f : LaggedRegForm K n) (x : Fin n → K) : Fin n → K :=
  fun i => f.weight_ * (x i - f.x_lagged_ i)

/-- Modelled from the spec: the body of `LaggedRegForm::update_lagging`, which
the header only declares.  The spec: it "refresh[es] the lagged reference to the
current accepted state"; the weight is `const`. -/
def update_lagging (f : LaggedRegForm K n) (x : Fin n → K) : LaggedRegForm K n :=
  { f with x_lagged_ := x }

/-- Modelled from the spec: the body of `LaggedRegForm::init_lagging`, which the
header only declares.  The spec: it "establish[es] the lagged reference state at
the start of an outer loop". -/
def init_lagging (f : LaggedRegForm K n) (x : Fin n → K) : LaggedRegForm K n :=
  { f with x_lagged_ := x }

end LaggedRegForm

end solver

/-! ## The type `int` -/

/-- The constant `std::numeric_limits<int>::max()` of a 32-bit `int`. -/
def INT_MAX : Int :=
  2 ^ 31 - 1

/-- The constant `std::numeric_limits<int>::min()` of a 32-bit `int`. -/
def INT_MIN : Int :=
  -2 ^ 31

/-- The value that a 32-bit two's-complement `int` holds for the integer `z`:
`z` itself when `INT_MIN <= z <= INT_MAX`, and otherwise the integer of that
range congruent to `z` modulo `2^32`. -/
def wrap_int (z : Int) : Int :=
  (z + 2 ^ 31) % 2 ^ 32 - 2 ^ 31

/-! ## `OptimizationProblem.hpp` -/

/-- The bookkeeping members of `OptimizationProblem` with their in-class
initialisers: `int iter = 0; int save_iter = -1; int dim; int actual_dim;
int save_freq = 1;` and `std::string optimization_name = "";`.  An `int` member
holds an integer between `INT_MIN` and `INT_MAX`. -/
structure OptimizationProblem where
  optimization_name : String := ""
  iter : Int := 0
  save_iter : Int := -1
  dim : Int
  actual_dim : Int
  save_freq : Int := 1

namespace OptimizationProblem

/-- The virtual method
`virtual void post_step(const int iter_num, const TVector &x0) { iter++; }`.
The increment is that of a 32-bit `int`: at `INT_MAX` it overflows (undefined
in the C++ standard), and the counter is given its two's-complement value. -/
def post_step {TVector : Type} (self : OptimizationProblem) (_iter_num : Int) (_x0 : TVector) :
    OptimizationProblem :=
  { self with iter := wrap_int (self.iter + 1) }

/-- A run of `post_step` calls, one for each pair `(iter_num, x0)` of the list,
in order. -/
def post_steps {TVector : Type} (self : OptimizationProblem) (calls : List (Int × TVector)) :
    OptimizationProblem :=
  calls.foldl (fun s a => s.post_step a.1 a.2) self

end OptimizationProblem

/-! ## The type `double` -/

/-- A value of the C++ type `double` (IEEE 754 binary64): a finite number, an
infinity, or a NaN.  The sign of a zero is not kept: `init_time` divides only by
numbers it has asserted to be positive. -/
inductive Double where
  /-- A finite double, by its exact value. -/
  | finite (value : ℚ)
  /-- The value `+inf`, or `-inf` when `negative`. -/
  | inf (negative : Bool)
  /-- A NaN. -/
  | nan
  deriving DecidableEq

namespace Double

/-- The integer nearest to `r`, a tie going to the even neighbour (the IEEE 754
default rounding `roundTiesToEven`). -/
def round_half_even (r : ℚ) : Int :=
  if r - ⌊r⌋ < 1 / 2 then ⌊r⌋
  else if 1 / 2 < r - ⌊r⌋ then ⌊r⌋ + 1
  else if ⌊r⌋ % 2 = 0 then ⌊r⌋
  else ⌊r⌋ + 1

/-- The exponent `e` for which the doubles around `q` are the multiples of
`2^e`: a normal double has 53 significant bits, and below `2^-1022` the spacing
stays `2^-1074`. -/
def ulp_exponent (q : ℚ) : Int :=
  max (Int.log 2 |q|) (-1022) - 52

/-- The correctly rounded double of the exact value `q`: the nearest multiple of
the spacing around `q`, ties to even, and an infinity when that is `2^1024` or
more in magnitude.  Every arithmetic operation on finite doubles returns the
exact result rounded this way. -/
def of_rat (q : ℚ) : Double :=
  if (2 : ℚ) ^ 1024 ≤ |(round_half_even (q / 2 ^ ulp_exponent q) : ℚ) * 2 ^ ulp_exponent q| then
    inf (decide (q < 0))
  else
    finite (round_half_even (q / 2 ^ ulp_exponent q) * 2 ^ ulp_exponent q)

/-- The operation `-a`. -/
def neg : Double → Double
  | finite x => finite (-x)
  | inf n => inf (!n)
  | nan => nan

/-- The operation `a + b`. -/
def add : Double → Double → Double
  | finite x, finite y => of_rat (x + y)
  | finite _, inf n => inf n
  | inf n, finite _ => inf n
  | inf n, inf m => if n = m then inf n else nan
  | _, _ => nan

/-- The operation `a - b`. -/
def sub (a b : Double) : Double :=
  add a (neg b)

/-- The operation `a * b`. -/
def mul : Double → Double → Double
  | finite x, finite y => of_rat (x * y)
  | finite x, inf n => if x = 0 then nan else inf (xor n (decide (x < 0)))
  | inf n, finite y => if y = 0 then nan else inf (xor n (decide (y < 0)))
  | inf n, inf m => inf (xor n m)
  | _, _ => nan

/-- The operation `a / b`. -/
def div : Double → Double → Double
  | finite x, finite y =>
    if y = 0 then (if x = 0 then nan else inf (decide (x < 0))) else of_rat (x / y)
  | finite _, inf _ => finite 0
  | inf n, finite y => inf (xor n (decide (y < 0)))
  | _, _ => nan

/-- The comparison `a < b`, false when either side is a NaN. -/
def lt : Double → Double → Bool
  | finite x, finite y => decide (x < y)
  | finite _, inf m => !m
  | inf n, finite _ => n
  | inf n, inf m => n && !m
  | _, _ => false

/-- The function `abs(a)`. -/
def abs : Double → Double
  | finite x => finite |x|
  | inf _ => inf false
  | nan => nan

/-- The function `ceil(a)`. -/
def ceil : Double → Double
  | finite x => finite ⌈x⌉
  | d => d

/-- The conversion `int(a)`: the value truncated towards zero when that is an
`int`; otherwise (out of range, infinite or NaN) the conversion is undefined
and there is no value. -/
def to_int : Double → Option Int
  | finite x =>
    let t : Int := if 0 ≤ x then ⌊x⌋ else ⌈x⌉
    if INT_MIN ≤ t ∧ t ≤ INT_MAX then some t else none
  | _ => none

/-- The conversion of an `int` to `double`. -/
def of_int (z : Int) : Double :=
  of_rat z

end Double

/-! ## `StateInit.cpp`: `State::init_time` -/

/-- The keys of the `"time"` section of the arguments that `init_time` reads
and writes, after the merge with `time_default` (`"t0": 0`, the other three
`null`): a `null` or absent value is `none`, `t0`, `tend` and `dt` hold a
`double` and `time_steps` holds a JSON integer. -/
structure TimeArgs where
  t0 : Option Double
  tend : Option Double
  dt : Option Double
  time_steps : Option Int
  deriving DecidableEq

/-- The ways in which `init_time` can stop without storing a result. -/
inductive Failure where
  /-- The statement `throw std::runtime_error(what)`. -/
  | runtime_error (what : String)
  /-- A failed `assert(...)`. -/
  | assertion_failed
  /-- The conversion of a `null` JSON value to a number. -/
  | json_type_error
  /-- The conversion `int(x)` of a `double` that no `int` holds. -/
  | undefined_conversion
  deriving DecidableEq

/-- The helper `is_param_valid(params, key)` of `JSONUtils.hpp`: the key is
present with a value that is not `null`. -/
def is_param_valid {α : Type} (value : Option α) : Bool :=
  value.isSome

/-- The conversion `double v = args["time"][key];`, which needs a number. -/
def json_get {α : Type} (value : Option α) : Except Failure α :=
  match value with
  | some v => pure v
  | none => throw Failure.json_type_error

/-- The conversion `int time_steps = args["time"]["time_steps"];`: it needs a
number, and the JSON integer is narrowed to the 32-bit `int`. -/
def json_get_int (value : Option Int) : Except Failure Int :=
  match value with
  | some v => pure (wrap_int v)
  | none => throw Failure.json_type_error

/-- The conversion `int(x)` of a `double`, which stops where it is undefined. -/
def double_to_int (x : Double) : Except Failure Int :=
  match x.to_int with
  | some z => pure z
  | none => throw Failure.undefined_conversion

/-- The macro `assert(cond)`. -/
def assert (cond : Bool) : Except Failure Unit :=
  if cond then pure () else throw Failure.assertion_failed

/-- The local `num_valid` of `init_time`:
`is_param_valid(args["time"], "tend") + is_param_valid(args["time"], "dt")
  + is_param_valid(args["time"], "time_steps")`. -/
def num_valid (a : TimeArgs) : Nat :=
  (is_param_valid a.tend).toNat + (is_param_valid a.dt).toNat
    + (is_param_valid a.time_steps).toNat

/-- The error thrown by `init_time`, in both places:
`std::runtime_error("Exactly two of (tend, dt, time_steps) must be specified")`. -/
def exactly_two_error : Failure :=
  Failure.runtime_error "Exactly two of (tend, dt, time_steps) must be specified"

/-- The literal `1e-12`: the double nearest to `10^-12`, which is
`4951760157141521 * 2^-92`. -/
def tolerance : Double :=
  Double.finite (4951760157141521 / 4951760157141521099596496896)

/-- The test `abs(t0 + dt * time_steps - tend) > 1e-12` of `init_time`, in
`double` arithmetic: the `int` is converted and every operation rounds. -/
def disagree (t0 tend dt : Double) (time_steps : Int) : Bool :=
  Double.lt tolerance
    (Double.abs (Double.sub (Double.add t0 (Double.mul dt (Double.of_int time_steps))) tend))

/-- The method `State::init_time`, on the `"time"` section of `args` (`none`
when `is_param_valid(args, "time")` is false), once the section has passed
`check_for_unknown_args`.  It returns the section as stored at the end of the
method.  The locals are `const double t0; double tend, dt; int time_steps;`:
arithmetic is that of `double`, `time_steps` is a 32-bit `int`. -/
def init_time (time : Option TimeArgs) : Except Failure (Option TimeArgs) :=
  match time with
  | none => pure none
  | some a => do
    let t0 ← json_get a.t0
    let (tend, dt, time_steps) ← (
      if num_valid a < 2 then
        throw exactly_two_error
      else if num_valid a = 2 then
        if is_param_valid a.tend then do
          let tend ← json_get a.tend
          assert (Double.lt t0 tend)
          if is_param_valid a.dt then do
            let dt ← json_get a.dt
            assert (Double.lt (Double.finite 0) dt)
            let time_steps ← double_to_int (Double.ceil (Double.div (Double.sub tend t0) dt))
            assert (decide (time_steps > 0))
            pure (tend, dt, time_steps)
          else if is_param_valid a.time_steps then do
            let time_steps ← json_get_int a.time_steps
            assert (decide (time_steps > 0))
            let dt : Double := Double.div (Double.sub tend t0) (Double.of_int time_steps)
            assert (Double.lt (Double.finite 0) dt)
            pure (tend, dt, time_steps)
          else
            throw Failure.assertion_failed
        else if is_param_valid a.dt then do
          assert (is_param_valid a.time_steps)
          let dt ← json_get a.dt
          assert (Double.lt (Double.finite 0) dt)
          let time_steps ← json_get_int a.time_steps
          assert (decide (time_steps > 0))
          let tend : Double := Double.add t0 (Double.mul (Double.of_int time_steps) dt)
          pure (tend, dt, time_steps)
        else
          throw Failure.assertion_failed
      else if num_valid a = 3 then do
        let tend ← json_get a.tend
        let dt ← json_get a.dt
        let time_steps ← json_get_int a.time_steps
        if disagree t0 tend dt time_steps then
          throw exactly_two_error
        else
          pure (tend, dt, time_steps)
      else
        -- not reached: `num_valid` is at most 3
        pure (Double.finite 0, Double.finite 0, 0) : Except Failure (Double × Double × Int))
    pure (some { a with tend := some tend, dt := some dt, time_steps := some time_steps })

/-! ## `StateInit.cpp`: the contact block of `State::init` -/

/-- The three arguments that the contact block of `State::init` reads and
writes: `args["contact"]["enabled"]`, `args["contact"]["friction_coefficient"]`
and `args["solver"]["contact"]["friction_iterations"]`. -/
structure ContactArgs where
  enabled : Bool
  friction_coefficient : ℚ
  friction_iterations : Int
  deriving DecidableEq

/-- The contact block of `State::init`, between the call of `init_time()` and
the choice of the problem:
`if (enabled) { if (friction_iterations == 0) friction_coefficient = 0.0;
  else if (friction_iterations < 0) friction_iterations = INT_MAX;
  if (friction_coefficient == 0.0) friction_iterations = 0; }
else { friction_iterations = 0; friction_coefficient = 0; }`. -/
def init_contact (args : ContactArgs) : ContactArgs :=
  if args.enabled then
    let args1 : ContactArgs :=
      if args.friction_iterations = 0 then
        { args with friction_coefficient := 0 }
      else if args.friction_iterations < 0 then
        { args with friction_iterations := INT_MAX }
      else args
    if args1.friction_coefficient = 0 then
      { args1 with friction_iterations := 0 }
    else args1
  else
    { args with friction_iterations := 0, friction_coefficient := 0 }

namespace solver

/-- The single-pass accumulation that the two-pass `apply_jacobian` is set
against ("naive single-pass accumulation is incorrect when stages are
nonlinear"): one backward loop, with no forward pass and no cache, in which
every stage's `apply_jacobian` is given the original `x`:
`for (i = size - 1; i >= 0; --i) gradv = parameterizations_[i]->apply_jacobian(gradv, x);`. -/
def naive_apply_jacobian {V : Type} (c : CompositeParameterization V) (x grad_full : V) : V :=
  c.parameterizations_.foldr (fun p gradv => p.apply_jacobian gradv x) grad_full

/-- The real vector of dimension 1 with entry `a`. -/
def vec1 (a : ℝ) : RVec :=
  ⟨1, fun _ => a⟩

end solver

end polyfem

/-! # Properties -/

namespace polyfem

namespace solver

namespace CompositeParameterization

variable {V : Type}

/-! ## The loops of `CompositeParameterization` -/

/-- The value of a chain is the left fold of `eval` over its stages, the empty
chain included. -/
theorem eval_eq_foldl (ps : List (Parameterization V)) (x : V) :
    (CompositeParameterization.mk ps).eval x = ps.foldl (fun y p => p.eval y) x := by
  cases ps <;> simp [eval]

/-- The empty chain returns its argument. -/
theorem eval_nil (x : V) : (CompositeParameterization.mk ([] : List (Parameterization V))).eval x = x := by
  simp [eval]

/-- The first stage is applied first. -/
theorem eval_cons (p : Parameterization V) (rest : List (Parameterization V)) (x : V) :
    (CompositeParameterization.mk (p :: rest)).eval x
      = (CompositeParameterization.mk rest).eval (p.eval x) := by
  simp [eval_eq_foldl]

/-- The value of a concatenation is the value of the second chain at the value
of the first. -/
theorem eval_append (A B : List (Parameterization V)) (x : V) :
    (CompositeParameterization.mk (A ++ B)).eval x
      = (CompositeParameterization.mk B).eval ((CompositeParameterization.mk A).eval x) := by
  simp [eval_eq_foldl]

/-- The forward loop started from a non-empty cache only prepends that cache. -/
theorem forward_loop_acc (ps : List (Parameterization V)) (acc : List V) (x : V) :
    ps.foldl (fun (s : List V × V) p => (s.1 ++ [s.2], p.eval s.2)) (acc, x)
      = (acc ++ (forward_cache ps x).1, (forward_cache ps x).2) := by
  induction ps generalizing acc x with
  | nil => simp [forward_cache]
  | cons p rest ih =>
    simp only [forward_cache, List.foldl_cons, List.nil_append]
    rw [ih (acc ++ [x]) (p.eval x), ih [x] (p.eval x)]
    simp

/-- The cache built by the forward loop holds the input of every stage. -/
theorem forward_cache_fst (ps : List (Parameterization V)) (x : V) :
    (forward_cache ps x).1 = stage_inputs ps x := by
  induction ps generalizing x with
  | nil => simp [forward_cache, stage_inputs]
  | cons p rest ih =>
    have e : forward_cache (p :: rest) x
        = rest.foldl (fun (s : List V × V) p => (s.1 ++ [s.2], p.eval s.2)) ([x], p.eval x) := by
      simp [forward_cache]
    rw [e, forward_loop_acc rest [x] (p.eval x)]
    simp [stage_inputs, ih]

/-- The value left in `y` by the forward loop is the value of the chain. -/
theorem forward_cache_snd (ps : List (Parameterization V)) (x : V) :
    (forward_cache ps x).2 = (CompositeParameterization.mk ps).eval x := by
  induction ps generalizing x with
  | nil => simp [forward_cache, eval]
  | cons p rest ih =>
    have e : forward_cache (p :: rest) x
        = rest.foldl (fun (s : List V × V) p => (s.1 ++ [s.2], p.eval s.2)) ([x], p.eval x) := by
      simp [forward_cache]
    rw [e, forward_loop_acc rest [x] (p.eval x), eval_cons]
    exact ih (p.eval x)

/-- The backward loop over no stages leaves the gradient as it is. -/
theorem backward_fold_nil (ys : List V) (g : V) :
    backward_fold ([] : List (Parameterization V)) ys g = g := by
  simp [backward_fold]

/-- The backward loop visits the first stage last. -/
theorem backward_fold_cons (p : Parameterization V) (rest : List (Parameterization V))
    (y : V) (ys : List V) (g : V) :
    backward_fold (p :: rest) (y :: ys) g = p.apply_jacobian (backward_fold rest ys g) y := by
  simp only [backward_fold, List.length_cons, List.range_succ_eq_map, List.reverse_cons,
    List.foldl_append, List.foldl_cons, List.foldl_nil, ← List.map_reverse, List.foldl_map,
    List.getElem?_cons_zero, List.getElem?_cons_succ]

/-- The empty chain returns the gradient it is given. -/
theorem apply_jacobian_nil (x g : V) :
    (CompositeParameterization.mk ([] : List (Parameterization V))).apply_jacobian x g = g := by
  simp [apply_jacobian]

/-- The two loops of `apply_jacobian`: the backward loop over the inputs of the
stages. -/
theorem apply_jacobian_eq_backward_fold (ps : List (Parameterization V)) (x g : V) :
    (CompositeParameterization.mk ps).apply_jacobian x g
      = backward_fold ps (stage_inputs ps x) g := by
  cases ps with
  | nil => simp [apply_jacobian, backward_fold]
  | cons p rest => simp [apply_jacobian, forward_cache_fst]

/-- The first stage pulls back, at `x`, what the rest of the chain pulls back at
`p.eval x`. -/
theorem apply_jacobian_cons (p : Parameterization V) (rest : List (Parameterization V))
    (x g : V) :
    (CompositeParameterization.mk (p :: rest)).apply_jacobian x g
      = p.apply_jacobian ((CompositeParameterization.mk rest).apply_jacobian (p.eval x) g) x := by
  rw [apply_jacobian_eq_backward_fold, apply_jacobian_eq_backward_fold, stage_inputs,
    backward_fold_cons]

/-- The cached input of stage `i` is the value of the first `i` stages at `x`. -/
theorem stage_inputs_get (ps : List (Parameterization V)) (x : V) (i : ℕ)
    (hi : i < ps.length) :
    (stage_inputs ps x)[i]? = some ((CompositeParameterization.mk (ps.take i)).eval x) := by
  induction ps generalizing x i with
  | nil => simp at hi
  | cons p rest ih =>
    cases i with
    | zero => simp [stage_inputs, eval]
    | succ k =>
      have hk : k < rest.length := by simpa using hi
      simp [stage_inputs, ih (p.eval x) k hk, eval_cons]

/-- The backward loop is a right fold over the stages paired with their cached
inputs. -/
theorem backward_fold_eq_foldr (ps : List (Parameterization V)) (x g : V) :
    backward_fold ps (stage_inputs ps x) g
      = (ps.zip (stage_inputs ps x)).foldr (fun py acc => py.1.apply_jacobian acc py.2) g := by
  induction ps generalizing x with
  | nil => simp [backward_fold, stage_inputs]
  | cons p rest ih => simp [stage_inputs, backward_fold_cons, ih]

/-! ## The claims on `CompositeParameterization` -/

/-- C1. A `CompositeParameterization` with no stages, built by the default
constructor or from an empty vector, is the identity: `eval(x)` returns `x`, and
`apply_jacobian(x, g)` returns `g` whatever `x` is. -/
theorem empty_chain_is_identity (x g : V) :
    (construct_default : CompositeParameterization V).eval x = x
      ∧ (construct_default : CompositeParameterization V).apply_jacobian x g = g
      ∧ construct ([] : List (Parameterization V)) = Except.ok (CompositeParameterization.mk [])
      ∧ (CompositeParameterization.mk ([] : List (Parameterization V))).eval x = x
      ∧ (CompositeParameterization.mk ([] : List (Parameterization V))).apply_jacobian x g = g :=
  ⟨eval_nil x, apply_jacobian_nil x g, rfl, eval_nil x, apply_jacobian_nil x g⟩

/-- C2. The value of a chain `[p_1, ..., p_n]` at `x` is
`p_n.eval(... p_2.eval(p_1.eval(x)) ...)`, the stages applied front to back, each
on the output of the one before: the left fold of `eval` over the stages; the
chain `p :: rest` sends `x` to the value of `rest` at `p.eval(x)`; the chain
`A ++ B` sends `x` to `eval_B(eval_A(x))`; and the chain `[p]` is `p.eval`. -/
theorem eval_front_to_back (ps A B rest : List (Parameterization V)) (p : Parameterization V)
    (x : V) :
    (CompositeParameterization.mk ps).eval x = ps.foldl (fun y q => q.eval y) x
      ∧ (CompositeParameterization.mk (p :: rest)).eval x
          = (CompositeParameterization.mk rest).eval (p.eval x)
      ∧ (CompositeParameterization.mk (A ++ B)).eval x
          = (CompositeParameterization.mk B).eval ((CompositeParameterization.mk A).eval x)
      ∧ (CompositeParameterization.mk [p]).eval x = p.eval x :=
  ⟨eval_eq_foldl ps x, eval_cons p rest x, eval_append A B x, by simp [eval]⟩

/-- C3. `apply_jacobian(x, g)` of a chain is the backward fold `g_n = g`,
`g_{i-1} = p_i.apply_jacobian(g_i, y_{i-1})`, result `g_0`, over the stages
paired with their own inputs `y_0 = x`, `y_i = p_i.eval(y_{i-1})`, from the last
stage to the first: the cached input of stage `i` is the value of the stages
before it at `x`, and
`apply_jacobian_{p::rest}(x, g) = p.apply_jacobian(apply_jacobian_{rest}(p.eval(x), g), x)`. -/
theorem apply_jacobian_backward_fold (ps rest : List (Parameterization V))
    (p : Parameterization V) (x g : V) :
    (CompositeParameterization.mk ps).apply_jacobian x g
        = (ps.zip (stage_inputs ps x)).foldr (fun py acc => py.1.apply_jacobian acc py.2) g
      ∧ (∀ i : Fin ps.length,
          (stage_inputs ps x)[i.val]? = some ((CompositeParameterization.mk (ps.take i.val)).eval x))
      ∧ (CompositeParameterization.mk (p :: rest)).apply_jacobian x g
          = p.apply_jacobian ((CompositeParameterization.mk rest).apply_jacobian (p.eval x) g) x :=
  ⟨by rw [apply_jacobian_eq_backward_fold, backward_fold_eq_foldr],
   fun i => stage_inputs_get ps x i.val i.isLt,
   apply_jacobian_cons p rest x g⟩

/-- C5. `inverse_eval` is unsupported unless overridden: the base-class body, and
so every stage that does not override it, fails with "Not supported" at every
`y`; and `CompositeParameterization::inverse_eval` fails with the same error for
every chain, empty or not, whatever the stages implement. -/
theorem inverse_eval_not_supported (c : CompositeParameterization V) (y : V)
    (size : Int → Int) (ev : V → V) (aj : V → V → V) :
    (Parameterization.inverse_eval_base y : Except String V) = Except.error "Not supported"
      ∧ ({ size := size, eval := ev, apply_jacobian := aj } : Parameterization V).inverse_eval y
          = Except.error "Not supported"
      ∧ c.inverse_eval y = Except.error "Not supported" :=
  ⟨rfl, rfl, rfl⟩

/-- C6, as it stands, fails: `keepTwo` reports the output size 2 for every input
size and `rotateThree` has nothing to return on an input whose size is not 3,
yet constructing the chain of the two succeeds, and the mismatch shows only when
the chain is evaluated. -/
theorem construct_mismatched_chain_succeeds :
    (∀ n : Int, keepTwo.size n = 2)
      ∧ (∀ x : List ℚ, x.length = 2 → rotateThree.eval x = [])
      ∧ construct [keepTwo, rotateThree]
          = Except.ok (CompositeParameterization.mk [keepTwo, rotateThree])
      ∧ (∀ e : String, construct [keepTwo, rotateThree] ≠ Except.error e)
      ∧ (CompositeParameterization.mk [keepTwo, rotateThree]).eval [1, 2, 3] = [] := by
  refine ⟨fun _ => rfl, ?_, rfl, ?_, ?_⟩
  · intro x hx
    match x, hx with
    | [a, b], _ => rfl
  · intro e h
    simp [construct] at h
  · simp [eval, keepTwo, rotateThree]

/-- C6, amended. Constructing a `CompositeParameterization` never fails and makes
no `size()` check: for every vector of stages the constructor succeeds and
stores the stages as given. -/
theorem construct_always_succeeds (parameterizations : List (Parameterization V)) :
    construct parameterizations = Except.ok (CompositeParameterization.mk parameterizations) :=
  rfl

end CompositeParameterization

/-! ## The chain rule -/

/-- A chain of stages that each satisfy the contract satisfies it as a whole:
the Jacobian of the chain is the product of the Jacobians of the stages, each
taken at that stage's own input, and the backward fold applies their transposes
in the reverse order. -/
theorem chain_contract_of_stages (ps : List (Parameterization RVec))
    (h : ∀ p ∈ ps, SatisfiesContract p) :
    CompositeSatisfiesContract (CompositeParameterization.mk ps) := by
  induction ps with
  | nil =>
    intro n
    refine ⟨n, id, fun _ => ContinuousLinearMap.id ℝ _,
      fun x => ⟨CompositeParameterization.eval_nil _, hasFDerivAt_id x, ?_⟩⟩
    intro g
    rw [CompositeParameterization.apply_jacobian_nil]
    simp
  | cons p rest ih =>
    intro n
    obtain ⟨m₁, f₁, J₁, h₁⟩ := h p (List.mem_cons_self p rest) n
    obtain ⟨m, f₂, J₂, h₂⟩ := ih (fun q hq => h q (List.mem_cons_of_mem p hq)) m₁
    refine ⟨m, f₂ ∘ f₁, fun x => (J₂ (f₁ x)).comp (J₁ x), fun x => ⟨?_, ?_, ?_⟩⟩
    · rw [CompositeParameterization.eval_cons, (h₁ x).1, (h₂ (f₁ x)).1]
      rfl
    · exact (h₂ (f₁ x)).2.1.comp x (h₁ x).2.1
    · intro g
      rw [CompositeParameterization.apply_jacobian_cons, (h₁ x).1, (h₂ (f₁ x)).2.2 g, (h₁ x).2.2]
      rw [ContinuousLinearMap.adjoint_comp]
      rfl

/-- The linear stage `scaleStage c` satisfies the contract: its Jacobian is `c`
times the identity. -/
theorem scaleStage_contract (c : ℝ) : SatisfiesContract (scaleStage c) := by
  intro n
  refine ⟨n, fun x => c • x, fun _ => c • ContinuousLinearMap.id ℝ _, fun x => ⟨rfl, ?_, ?_⟩⟩
  · exact (hasFDerivAt_id x).const_smul c
  · intro g
    simp [scaleStage]
    rfl

/-- The nonlinear stage `squareStage` satisfies the contract: its Jacobian at
`x` is the diagonal matrix with entries `2 * x i`, which is its own transpose. -/
theorem squareStage_contract : SatisfiesContract squareStage := by
  intro n
  let D : EuclideanSpace ℝ (Fin n) → (EuclideanSpace ℝ (Fin n) →L[ℝ] EuclideanSpace ℝ (Fin n)) :=
    fun x => LinearMap.toContinuousLinearMap
      { toFun := fun v => (fun i => 2 * x i * v i : EuclideanSpace ℝ (Fin n))
        map_add' := by intro u v; ext i; simp [mul_add]
        map_smul' := by intro r v; ext i; simp; ring }
  have hD : ∀ x v i, D x v i = 2 * x i * v i := fun x v i => rfl
  refine ⟨n, fun x => (fun i => x i * x i : EuclideanSpace ℝ (Fin n)), D, fun x => ⟨rfl, ?_, ?_⟩⟩
  · apply HasStrictFDerivAt.hasFDerivAt
    rw [hasStrictFDerivAt_euclidean]
    intro i
    have hp : HasStrictFDerivAt (fun y : EuclideanSpace ℝ (Fin n) => y i)
        (EuclideanSpace.proj i : EuclideanSpace ℝ (Fin n) →L[ℝ] ℝ) x :=
      (EuclideanSpace.proj i : EuclideanSpace ℝ (Fin n) →L[ℝ] ℝ).hasStrictFDerivAt
    have hm := hp.mul hp
    convert hm using 1
    ext v
    simp [hD]
    ring
  · intro g
    have hs : ContinuousLinearMap.adjoint (D x) = D x := by
      symm
      rw [ContinuousLinearMap.eq_adjoint_iff]
      intro u v
      simp only [PiLp.inner_apply, hD]
      refine Finset.sum_congr rfl (fun i _ => ?_)
      simp
      ring
    rw [hs]
    simp only [squareStage, dif_pos]
    rfl

/-- C4. Chain rule for the composite: if every stage of a chain satisfies the
`Parameterization` contract (its `eval` is differentiable at every point and
its `apply_jacobian(g, x)` is the transpose of the Jacobian of `eval` at `x`
applied to `g`), then the chain's `eval` is differentiable at every `x` and the
chain's `apply_jacobian(x, g)` is the transpose of the Jacobian of the chain's
`eval` at `x` applied to `g`, for chains of every length and stages linear or
not (numbers are exact reals). -/
theorem composite_chain_rule (c : CompositeParameterization RVec)
    (h : ∀ p ∈ c.parameterizations_, SatisfiesContract p) :
    CompositeSatisfiesContract c :=
  chain_contract_of_stages c.parameterizations_ h

/-- The chain rule at the two-stage chain "double every entry, then square every
entry", whose second stage is nonlinear. -/
theorem composite_chain_rule_witness :
    (∀ p ∈ (CompositeParameterization.mk [scaleStage 2, squareStage]).parameterizations_,
        SatisfiesContract p)
      ∧ CompositeSatisfiesContract (CompositeParameterization.mk [scaleStage 2, squareStage]) :=
  have h : ∀ p ∈ (CompositeParameterization.mk [scaleStage 2, squareStage]).parameterizations_,
      SatisfiesContract p := by
    intro p hp
    simp only [List.mem_cons, List.mem_singleton, List.not_mem_nil, or_false] at hp
    rcases hp with rfl | rfl
    · exact scaleStage_contract 2
    · exact squareStage_contract
  ⟨h, composite_chain_rule (CompositeParameterization.mk [scaleStage 2, squareStage]) h⟩

/-! ## `LaggedRegForm` -/

namespace LaggedRegForm

/-- The lagged-regularisation gradient is the gradient of the value: over the
reals, `value_unweighted` is differentiable at every `x` and its gradient there
is `first_derivative_unweighted x`. -/
theorem hasGradientAt_value_unweighted {n : ℕ} (f : LaggedRegForm ℝ n)
    (x : EuclideanSpace ℝ (Fin n)) :
    HasGradientAt (fun y : EuclideanSpace ℝ (Fin n) => f.value_unweighted y)
      ((f.first_derivative_unweighted x : Fin n → ℝ) : EuclideanSpace ℝ (Fin n)) x := by
  rw [hasGradientAt_iff_hasFDerivAt]
  have hp : ∀ i : Fin n,
      HasFDerivAt (fun y : EuclideanSpace ℝ (Fin n) => (y i - f.x_lagged_ i) ^ 2)
        ((2 * (x i - f.x_lagged_ i))
          • (EuclideanSpace.proj i : EuclideanSpace ℝ (Fin n) →L[ℝ] ℝ)) x := by
    intro i
    have h1 : HasFDerivAt (fun y : EuclideanSpace ℝ (Fin n) => y i - f.x_lagged_ i)
        (EuclideanSpace.proj i : EuclideanSpace ℝ (Fin n) →L[ℝ] ℝ) x :=
      ((EuclideanSpace.proj i : EuclideanSpace ℝ (Fin n) →L[ℝ] ℝ).hasFDerivAt).sub_const _
    have h2 := h1.mul h1
    convert h2 using 1
    · funext y
      ring
    · ext v
      simp
      ring
  have hs := (HasFDerivAt.sum (fun i (_ : i ∈ Finset.univ) => hp i)).const_mul
    (f.weight_ * (1 / 2))
  unfold value_unweighted
  convert hs using 1
  ext v
  simp [first_derivative_unweighted, PiLp.inner_apply, Finset.mul_sum,
    ContinuousLinearMap.sum_apply]
  refine Finset.sum_congr rfl (fun i _ => ?_)
  ring

/-- C8. After `init_lagging(r)` or `update_lagging(r)`, whatever reference was
held before, `value_unweighted(r + d)` is `weight * 0.5 * ||d||^2`; in particular
the value at `r` is exactly 0, and after `update_lagging(x1)` the value at `x1`
is again exactly 0, independently of the earlier reference `x0`. -/
theorem value_unweighted_after_lagging {K : Type} [Field K] {n : ℕ} (f : LaggedRegForm K n)
    (r d x0 x1 : Fin n → K) :
    (f.init_lagging r).value_unweighted (r + d) = f.weight_ * (1 / 2) * ∑ i, d i ^ 2
      ∧ (f.update_lagging r).value_unweighted (r + d) = f.weight_ * (1 / 2) * ∑ i, d i ^ 2
      ∧ (f.init_lagging r).value_unweighted r = 0
      ∧ (f.update_lagging r).value_unweighted r = 0
      ∧ ((f.init_lagging x0).update_lagging x1).value_unweighted x1 = 0 := by
  simp [value_unweighted, init_lagging, update_lagging]

/-- C9. For every weight `w`, lagged reference `r` and `x`, the gradient of the
form at `x` is `w * (x - r)`: linear in the deviation, zero at the reference, and
(over the reals) the exact derivative of the value `w * 0.5 * ||x - r||^2`; with
weight 2 over a 3-dimensional state lagged at `[0,0,0]`, the value at `[1,2,2]`
is 9 and the gradient is `[2,4,4]`. -/
theorem first_derivative_is_gradient {K : Type} [Field K] {n m : ℕ} (w : K) (r x d r0 : Fin n → K)
    (f : LaggedRegForm ℝ m) (y : EuclideanSpace ℝ (Fin m)) (s0 : Fin 3 → ℚ) :
    ((LaggedRegForm.mk r0 w).init_lagging r).first_derivative_unweighted x
        = (fun i => w * (x i - r i))
      ∧ ((LaggedRegForm.mk r0 w).init_lagging r).first_derivative_unweighted (r + d) = w • d
      ∧ ((LaggedRegForm.mk r0 w).init_lagging r).first_derivative_unweighted r = 0
      ∧ HasGradientAt (fun z : EuclideanSpace ℝ (Fin m) => f.value_unweighted z)
          ((f.first_derivative_unweighted y : Fin m → ℝ) : EuclideanSpace ℝ (Fin m)) y
      ∧ ((LaggedRegForm.mk s0 (2 : ℚ)).init_lagging ![0, 0, 0]).value_unweighted ![1, 2, 2] = 9
      ∧ ((LaggedRegForm.mk s0 (2 : ℚ)).init_lagging ![0, 0, 0]).first_derivative_unweighted
          ![1, 2, 2] = ![2, 4, 4] := by
  refine ⟨rfl, ?_, ?_, hasGradientAt_value_unweighted f y, ?_, ?_⟩
  · funext i
    simp [first_derivative_unweighted, init_lagging]
  · funext i
    simp [first_derivative_unweighted, init_lagging]
  · simp [value_unweighted, init_lagging, Fin.sum_univ_three]
    norm_num
  · funext i
    fin_cases i <;> simp [first_derivative_unweighted, init_lagging] <;> norm_num

end LaggedRegForm

end solver

/-- Inside the range of `int` nothing is wrapped. -/
theorem wrap_int_of_range (z : Int) (h1 : INT_MIN ≤ z) (h2 : z ≤ INT_MAX) : wrap_int z = z := by
  simp only [INT_MIN, INT_MAX] at h1 h2
  simp only [wrap_int]
  omega

namespace OptimizationProblem

/-- The counter after a run of `post_step` calls that stays inside the range of
`int`. -/
theorem post_steps_iter {TVector : Type} (self : OptimizationProblem)
    (calls : List (Int × TVector)) (h1 : INT_MIN ≤ self.iter)
    (h2 : self.iter + calls.length ≤ INT_MAX) :
    (self.post_steps calls).iter = self.iter + calls.length := by
  induction calls generalizing self with
  | nil => simp [post_steps]
  | cons a rest ih =>
    simp only [List.length_cons, Nat.cast_add, Nat.cast_one] at h2
    have hstep : (self.post_step a.1 a.2).iter = self.iter + 1 := by
      simp only [post_step]
      exact wrap_int_of_range _ (by omega) (by omega)
    have h := ih (self.post_step a.1 a.2) (by rw [hstep]; omega) (by rw [hstep]; omega)
    simp only [post_steps, List.foldl_cons, List.length_cons] at h ⊢
    rw [h, hstep]
    push_cast
    ring

/-- C10, as it stands, fails at the largest `int`: from the counter `INT_MAX` a
call of `post_step` does not leave `INT_MAX + 1`, which no `int` holds, but the
wrapped value `INT_MIN`. -/
theorem post_step_overflows_at_int_max :
    (({ iter := INT_MAX, dim := 0, actual_dim := 0 } : OptimizationProblem).post_step 7 ()).iter
        = INT_MIN
      ∧ (({ iter := INT_MAX, dim := 0, actual_dim := 0 } : OptimizationProblem).post_step 7 ()).iter
        ≠ ({ iter := INT_MAX, dim := 0, actual_dim := 0 } : OptimizationProblem).iter + 1 := by
  simp [post_step, wrap_int, INT_MAX, INT_MIN]

/-- C10, amended. For every state whose counter `n` is an `int` below `INT_MAX`,
`post_step(iter_num, x0)` leaves the counter `n + 1`, whatever `iter_num` and
`x0` are, and changes nothing else; from the initial counter 0, after `k` calls
with `k <= INT_MAX` the counter is `k`. -/
theorem post_step_advances_iter {TVector : Type} (self : OptimizationProblem) (iter_num : Int)
    (x0 : TVector) (dim actual_dim : Int) (calls : List (Int × TVector))
    (h1 : INT_MIN ≤ self.iter) (h2 : self.iter < INT_MAX)
    (hk : (calls.length : Int) ≤ INT_MAX) :
    (self.post_step iter_num x0).iter = self.iter + 1
      ∧ self.post_step iter_num x0 = { self with iter := self.iter + 1 }
      ∧ ({ dim := dim, actual_dim := actual_dim } : OptimizationProblem).iter = 0
      ∧ (({ dim := dim, actual_dim := actual_dim } : OptimizationProblem).post_steps calls).iter
          = calls.length := by
  have hw : wrap_int (self.iter + 1) = self.iter + 1 :=
    wrap_int_of_range _ (by omega) (by omega)
  refine ⟨by simp only [post_step, hw], by simp only [post_step, hw], rfl, ?_⟩
  rw [post_steps_iter _ _ (by simp [INT_MIN]) (by simpa using hk)]
  simp

/-- C10, amended, at the initial state and a run of two calls. -/
theorem post_step_advances_iter_witness :
    (({ dim := 3, actual_dim := 3 } : OptimizationProblem).post_step 9 ()).iter = 0 + 1
      ∧ (({ dim := 3, actual_dim := 3 } : OptimizationProblem).post_steps
          [((0 : Int), ()), (5, ())]).iter = 2 :=
  have h := post_step_advances_iter ({ dim := 3, actual_dim := 3 } : OptimizationProblem) 9 ()
    3 3 [((0 : Int), ()), (5, ())] (by simp [INT_MIN]) (by simp [INT_MAX]) (by simp [INT_MAX])
  ⟨h.1, h.2.2.2⟩

end OptimizationProblem

/-! ## Evaluating `double` arithmetic -/

namespace Double

/-- An integer within one half of `r` is what `r` rounds to. -/
theorem round_half_even_eq (r : ℚ) (m : Int) (h : |r - m| < 1 / 2) : round_half_even r = m := by
  have h1 := Int.floor_le r
  have h2 := Int.lt_floor_add_one r
  rw [abs_lt] at h
  unfold round_half_even
  split_ifs with c1 c2 c3
  · have : (⌊r⌋ : ℚ) - m < 1 := by linarith
    have : (m : ℚ) - ⌊r⌋ < 1 := by linarith
    have a1 : ⌊r⌋ - m < 1 := by exact_mod_cast ‹(⌊r⌋ : ℚ) - m < 1›
    have a2 : m - ⌊r⌋ < 1 := by exact_mod_cast ‹(m : ℚ) - ⌊r⌋ < 1›
    omega
  · have b1 : ((⌊r⌋ + 1 : Int) : ℚ) - m < 1 := by push_cast; linarith
    have b2 : (m : ℚ) - ((⌊r⌋ + 1 : Int) : ℚ) < 1 := by push_cast; linarith
    have a1 : (⌊r⌋ + 1) - m < 1 := by exact_mod_cast b1
    have a2 : m - (⌊r⌋ + 1) < 1 := by exact_mod_cast b2
    omega
  · exfalso
    have e : r - ⌊r⌋ = 1 / 2 := le_antisymm (not_lt.mp c2) (not_lt.mp c1)
    have b1 : (0 : ℚ) < (m : ℚ) - ⌊r⌋ := by linarith
    have b2 : (m : ℚ) - ⌊r⌋ < 1 := by linarith
    have a1 : 0 < m - ⌊r⌋ := by exact_mod_cast b1
    have a2 : m - ⌊r⌋ < 1 := by exact_mod_cast b2
    omega
  · exfalso
    have e : r - ⌊r⌋ = 1 / 2 := le_antisymm (not_lt.mp c2) (not_lt.mp c1)
    have b1 : (0 : ℚ) < (m : ℚ) - ⌊r⌋ := by linarith
    have b2 : (m : ℚ) - ⌊r⌋ < 1 := by linarith
    have a1 : 0 < m - ⌊r⌋ := by exact_mod_cast b1
    have a2 : m - ⌊r⌋ < 1 := by exact_mod_cast b2
    omega

/-- A value halfway between `k` and `k + 1` rounds to the even one. -/
theorem round_half_even_tie (r : ℚ) (k : Int) (h : r = k + 1 / 2) :
    round_half_even r = if k % 2 = 0 then k else k + 1 := by
  have hf : ⌊r⌋ = k := by
    rw [Int.floor_eq_iff, h]
    constructor <;> linarith
  unfold round_half_even
  rw [hf, h]
  norm_num

/-- The spacing of the doubles around a normal `q` with `2^(e+52) <= |q| < 2^(e+53)`
is `2^e`. -/
theorem ulp_exponent_eq (q : ℚ) (e : Int) (hlo : (2 : ℚ) ^ (e + 52) ≤ |q|)
    (hhi : |q| < (2 : ℚ) ^ (e + 53)) (he : -1074 ≤ e) : ulp_exponent q = e := by
  have hpos : 0 < |q| := lt_of_lt_of_le (by positivity) hlo
  have h1 : e + 52 ≤ Int.log 2 |q| :=
    (Int.zpow_le_iff_le_log (by norm_num) hpos).mp (by exact_mod_cast hlo)
  have h2 : Int.log 2 |q| < e + 53 :=
    (Int.lt_zpow_iff_log_lt (by norm_num) hpos).mp (by exact_mod_cast hhi)
  unfold ulp_exponent
  omega

/-- The double of a normal `q`: the multiple `m * 2^e` of the spacing, `m` the
rounded quotient, when that is below `2^1024`. -/
theorem of_rat_eq (q : ℚ) (e m : Int) (hlo : (2 : ℚ) ^ (e + 52) ≤ |q|)
    (hhi : |q| < (2 : ℚ) ^ (e + 53)) (he : -1074 ≤ e)
    (hm : round_half_even (q / 2 ^ e) = m) (hfin : |(m : ℚ) * 2 ^ e| < 2 ^ 1024) :
    of_rat q = finite (m * 2 ^ e) := by
  unfold of_rat
  rw [ulp_exponent_eq q e hlo hhi he, hm, if_neg (not_le.mpr hfin)]

/-- The double of `0` is `0.0`. -/
theorem of_rat_zero : of_rat 0 = finite 0 := by
  simp [of_rat, round_half_even]

/-- The double difference `1.0 - 1.0` is `0.0`. -/
theorem sub_one_one : sub (finite 1) (finite 1) = finite 0 := by
  simp only [sub, neg, add]
  norm_num [of_rat_zero]

/-- The double nearest to `0.1`. -/
theorem of_rat_tenth :
    of_rat (1 / 10) = finite (3602879701896397 / 36028797018963968) := by
  rw [of_rat_eq _ (-56) (7205759403792794) (by norm_num [abs_of_pos]) (by norm_num [abs_of_pos])
    (by norm_num) (round_half_even_eq _ _ (by norm_num [abs_lt]))
    (by norm_num [abs_of_pos])]
  norm_num

/-- The double nearest to `0.4`. -/
theorem of_rat_four_tenths :
    of_rat (4 / 10) = finite (3602879701896397 / 9007199254740992) := by
  rw [of_rat_eq _ (-54) (7205759403792794) (by norm_num [abs_of_pos]) (by norm_num [abs_of_pos])
    (by norm_num) (round_half_even_eq _ _ (by norm_num [abs_lt]))
    (by norm_num [abs_of_pos])]
  norm_num

/-- The literal `tolerance` is the double nearest to `10^-12`. -/
theorem of_rat_tolerance :
    of_rat (1 / 10 ^ 12) = finite (4951760157141521 / 4951760157141521099596496896) := by
  rw [of_rat_eq _ (-92) (4951760157141521) (by norm_num [abs_of_pos]) (by norm_num [abs_of_pos])
    (by norm_num) (round_half_even_eq _ _ (by norm_num [abs_lt]))
    (by norm_num [abs_of_pos])]
  norm_num

/-- The double nearest to `9999.9`. -/
theorem of_rat_big_tend :
    of_rat (99999 / 10) = finite (5497503163298611 / 549755813888) := by
  rw [of_rat_eq _ (-39) (5497503163298611) (by norm_num [abs_of_pos]) (by norm_num [abs_of_pos])
    (by norm_num) (round_half_even_eq _ _ (by norm_num [abs_lt]))
    (by norm_num [abs_of_pos])]
  norm_num

/-- The integer `3` is a double. -/
theorem of_rat_three :
    of_rat 3 = finite (3) := by
  rw [of_rat_eq _ (-51) (6755399441055744) (by norm_num [abs_of_pos]) (by norm_num [abs_of_pos])
    (by norm_num) (round_half_even_eq _ _ (by norm_num [abs_lt]))
    (by norm_num [abs_of_pos])]
  norm_num

/-- The integer `4` is a double. -/
theorem of_rat_four :
    of_rat 4 = finite (4) := by
  rw [of_rat_eq _ (-50) (4503599627370496) (by norm_num [abs_of_pos]) (by norm_num [abs_of_pos])
    (by norm_num) (round_half_even_eq _ _ (by norm_num [abs_lt]))
    (by norm_num [abs_of_pos])]
  norm_num

/-- The integer `99999` is a double. -/
theorem of_rat_many :
    of_rat 99999 = finite (99999) := by
  rw [of_rat_eq _ (-36) (6871878954123264) (by norm_num [abs_of_pos]) (by norm_num [abs_of_pos])
    (by norm_num) (round_half_even_eq _ _ (by norm_num [abs_lt]))
    (by norm_num [abs_of_pos])]
  norm_num

/-- The double difference `0.4 - 0.1` is `0.30000000000000004`. -/
theorem sub_four_tenths_tenth :
    sub (finite (3602879701896397 / 9007199254740992)) (finite (3602879701896397 / 36028797018963968)) = finite (1351079888211149 / 4503599627370496) := by
  simp only [sub, neg, add]
  rw [of_rat_eq _ (-54) (5404319552844596) (by norm_num [abs_of_pos]) (by norm_num [abs_of_pos])
    (by norm_num) (by rw [round_half_even_tie _ (5404319552844595) (by norm_num)]; norm_num)
    (by norm_num [abs_of_pos])]
  norm_num

/-- The double quotient `(0.4 - 0.1) / 0.1` is `3.0000000000000004`. -/
theorem div_three_tenths_tenth :
    div (finite (1351079888211149 / 4503599627370496)) (finite (3602879701896397 / 36028797018963968)) = finite (6755399441055745 / 2251799813685248) := by
  rw [div, if_neg (by norm_num)]
  rw [of_rat_eq _ (-51) (6755399441055745) (by norm_num [abs_of_pos]) (by norm_num [abs_of_pos])
    (by norm_num) (round_half_even_eq _ _ (by norm_num [abs_lt]))
    (by norm_num [abs_of_pos])]
  norm_num

/-- The double product `0.1 * 99999` is `9999.900000000001`. -/
theorem mul_tenth_many :
    mul (finite (3602879701896397 / 36028797018963968)) (finite 99999) = finite (1374375790824653 / 137438953472) := by
  simp only [mul]
  rw [of_rat_eq _ (-39) (5497503163298612) (by norm_num [abs_of_pos]) (by norm_num [abs_of_pos])
    (by norm_num) (round_half_even_eq _ _ (by norm_num [abs_lt]))
    (by norm_num [abs_of_pos])]
  norm_num

/-- Adding `0.0` to the product leaves it. -/
theorem add_zero_product :
    add (finite 0) (finite (1374375790824653 / 137438953472)) = finite (1374375790824653 / 137438953472) := by
  simp only [add]
  rw [of_rat_eq _ (-39) (5497503163298612) (by norm_num [abs_of_pos]) (by norm_num [abs_of_pos])
    (by norm_num) (round_half_even_eq _ _ (by norm_num [abs_lt]))
    (by norm_num [abs_of_pos])]
  norm_num

/-- The double difference `0.1 * 99999 - 9999.9` is `2^-39`. -/
theorem sub_product_tend :
    sub (finite (1374375790824653 / 137438953472)) (finite (5497503163298611 / 549755813888)) = finite (1 / 549755813888) := by
  simp only [sub, neg, add]
  rw [of_rat_eq _ (-91) (4503599627370496) (by norm_num [abs_of_pos]) (by norm_num [abs_of_pos])
    (by norm_num) (round_half_even_eq _ _ (by norm_num [abs_lt]))
    (by norm_num [abs_of_pos])]
  norm_num

/-- The double quotient `1.0 / 3` is below one third. -/
theorem div_one_three :
    div (finite 1) (finite 3) = finite (6004799503160661 / 18014398509481984) := by
  rw [div, if_neg (by norm_num)]
  rw [of_rat_eq _ (-54) (6004799503160661) (by norm_num [abs_of_pos]) (by norm_num [abs_of_pos])
    (by norm_num) (round_half_even_eq _ _ (by norm_num [abs_lt]))
    (by norm_num [abs_of_pos])]
  norm_num

/-- The double product `3 * 0.1` is `0.30000000000000004`. -/
theorem mul_three_tenth :
    mul (finite 3) (finite (3602879701896397 / 36028797018963968)) = finite (1351079888211149 / 4503599627370496) := by
  simp only [mul]
  rw [of_rat_eq _ (-54) (5404319552844596) (by norm_num [abs_of_pos]) (by norm_num [abs_of_pos])
    (by norm_num) (by rw [round_half_even_tie _ (5404319552844595) (by norm_num)]; norm_num)
    (by norm_num [abs_of_pos])]
  norm_num

/-- Adding `0.0` to `3 * 0.1` leaves it. -/
theorem add_zero_three_tenths :
    add (finite 0) (finite (1351079888211149 / 4503599627370496)) = finite (1351079888211149 / 4503599627370496) := by
  simp only [add]
  rw [of_rat_eq _ (-54) (5404319552844596) (by norm_num [abs_of_pos]) (by norm_num [abs_of_pos])
    (by norm_num) (round_half_even_eq _ _ (by norm_num [abs_lt]))
    (by norm_num [abs_of_pos])]
  norm_num

/-- The double product `0.25 * 4` is `1.0`. -/
theorem mul_quarter_four :
    mul (finite (1 / 4)) (finite 4) = finite (1) := by
  simp only [mul]
  rw [of_rat_eq _ (-52) (4503599627370496) (by norm_num [abs_of_pos]) (by norm_num [abs_of_pos])
    (by norm_num) (round_half_even_eq _ _ (by norm_num [abs_lt]))
    (by norm_num [abs_of_pos])]
  norm_num

/-- The double sum `0.0 + 1.0` is `1.0`. -/
theorem add_zero_one :
    add (finite 0) (finite 1) = finite (1) := by
  simp only [add]
  rw [of_rat_eq _ (-52) (4503599627370496) (by norm_num [abs_of_pos]) (by norm_num [abs_of_pos])
    (by norm_num) (round_half_even_eq _ _ (by norm_num [abs_lt]))
    (by norm_num [abs_of_pos])]
  norm_num

/-- The double difference `1e10 - 0.0` is `1e10`. -/
theorem sub_ten_billion_zero :
    sub (finite 10000000000) (finite 0) = finite (10000000000) := by
  simp only [sub, neg, add]
  rw [of_rat_eq _ (-19) (5242880000000000) (by norm_num [abs_of_pos]) (by norm_num [abs_of_pos])
    (by norm_num) (round_half_even_eq _ _ (by norm_num [abs_lt]))
    (by norm_num [abs_of_pos])]
  norm_num

/-- The double quotient `1e10 / 1.0` is `1e10`. -/
theorem div_ten_billion_one :
    div (finite 10000000000) (finite 1) = finite (10000000000) := by
  rw [div, if_neg (by norm_num)]
  rw [of_rat_eq _ (-19) (5242880000000000) (by norm_num [abs_of_pos]) (by norm_num [abs_of_pos])
    (by norm_num) (round_half_even_eq _ _ (by norm_num [abs_lt]))
    (by norm_num [abs_of_pos])]
  norm_num

/-- The double difference `1.0 - 0.0` is `1.0`. -/
theorem sub_one_zero :
    sub (finite 1) (finite 0) = finite (1) := by
  simp only [sub, neg, add]
  rw [of_rat_eq _ (-52) (4503599627370496) (by norm_num [abs_of_pos]) (by norm_num [abs_of_pos])
    (by norm_num) (round_half_even_eq _ _ (by norm_num [abs_lt]))
    (by norm_num [abs_of_pos])]
  norm_num


/-- The double product `4 * 0.25` is `1.0`. -/
theorem mul_four_quarter :
    mul (finite 4) (finite (1 / 4)) = finite (1) := by
  simp only [mul]
  rw [of_rat_eq _ (-52) (4503599627370496) (by norm_num [abs_of_pos]) (by norm_num [abs_of_pos])
    (by norm_num) (round_half_even_eq _ _ (by norm_num [abs_lt]))
    (by norm_num [abs_of_pos])]
  norm_num

/-- The double quotient `1.0 / 0.25` is `4.0`. -/
theorem div_one_quarter :
    div (finite 1) (finite (1 / 4)) = finite (4) := by
  rw [div, if_neg (by norm_num)]
  rw [of_rat_eq _ (-50) (4503599627370496) (by norm_num [abs_of_pos]) (by norm_num [abs_of_pos])
    (by norm_num) (round_half_even_eq _ _ (by norm_num [abs_lt]))
    (by norm_num [abs_of_pos])]
  norm_num

end Double

/-! ## `State::init_time` -/

/-- Without a value for `t0` the conversion at the head of `init_time` stops
it. -/
theorem init_time_null_t0 (tend dt : Option Double) (ts : Option Int) :
    init_time (some ⟨none, tend, dt, ts⟩) = Except.error Failure.json_type_error := by
  simp [init_time, json_get, bind, Except.bind, throw, throwThe, MonadExceptOf.throw]

/-- The error "Exactly two of (tend, dt, time_steps) must be specified" is the
outcome exactly when fewer than two values are valid, or all three are and the
test of `init_time` on them, in `double` arithmetic and with `time_steps`
narrowed to `int`, finds a disagreement. -/
theorem init_time_error_iff (t0 : Double) (tend dt : Option Double) (ts : Option Int) :
    init_time (some ⟨some t0, tend, dt, ts⟩) = Except.error exactly_two_error
      ↔ (num_valid ⟨some t0, tend, dt, ts⟩ < 2
          ∨ ∃ tend1 dt1 ts1, tend = some tend1 ∧ dt = some dt1 ∧ ts = some ts1
              ∧ disagree t0 tend1 dt1 (wrap_int ts1) = true) := by
  rcases tend with _ | tend <;> rcases dt with _ | dt <;> rcases ts with _ | ts <;>
    simp [init_time, num_valid, is_param_valid, json_get, json_get_int, double_to_int, assert,
      exactly_two_error, bind, Except.bind, pure, Except.pure, throw, throwThe,
      MonadExceptOf.throw]
  · split_ifs <;> simp
  · split_ifs <;> simp
  · cases h : ((tend.sub t0).div dt).ceil.to_int <;> split_ifs <;> simp
    split_ifs <;> simp
  · split_ifs <;> simp_all

/-- Given `tend` and `dt`: the number of steps stored is the `int` that the
ceiling of the double quotient converts to. -/
theorem init_time_tend_dt (t0 tend dt : Double) (n : Int)
    (h1 : Double.lt t0 tend = true) (h2 : Double.lt (Double.finite 0) dt = true)
    (hn : (Double.ceil (Double.div (Double.sub tend t0) dt)).to_int = some n) (hpos : 0 < n) :
    init_time (some ⟨some t0, some tend, some dt, none⟩)
      = Except.ok (some ⟨some t0, some tend, some dt, some n⟩) := by
  simp [init_time, num_valid, is_param_valid, json_get, double_to_int, assert,
    bind, Except.bind, pure, Except.pure, h1, h2, hn, hpos]

/-- Given `tend` and `dt`: where the ceiling of the double quotient has no `int`
value, nothing is stored. -/
theorem init_time_tend_dt_undefined (t0 tend dt : Double)
    (h1 : Double.lt t0 tend = true) (h2 : Double.lt (Double.finite 0) dt = true)
    (hn : (Double.ceil (Double.div (Double.sub tend t0) dt)).to_int = none) :
    init_time (some ⟨some t0, some tend, some dt, none⟩)
      = Except.error Failure.undefined_conversion := by
  simp [init_time, num_valid, is_param_valid, json_get, double_to_int, assert,
    bind, Except.bind, pure, Except.pure, throw, throwThe, MonadExceptOf.throw, h1, h2, hn]

/-- Given `tend` and `time_steps`: the step stored is the double quotient, and
the number of steps is stored narrowed to `int`. -/
theorem init_time_tend_steps (t0 tend : Double) (ts : Int)
    (h1 : Double.lt t0 tend = true) (h2 : 0 < wrap_int ts)
    (h3 : Double.lt (Double.finite 0)
      (Double.div (Double.sub tend t0) (Double.of_int (wrap_int ts))) = true) :
    init_time (some ⟨some t0, some tend, none, some ts⟩)
      = Except.ok (some ⟨some t0, some tend,
          some (Double.div (Double.sub tend t0) (Double.of_int (wrap_int ts))),
          some (wrap_int ts)⟩) := by
  simp [init_time, num_valid, is_param_valid, json_get, json_get_int, assert,
    bind, Except.bind, pure, Except.pure, h1, h2, h3]

/-- Given `dt` and `time_steps`: the end time stored is the double
`t0 + time_steps * dt`, and the number of steps is stored narrowed to `int`. -/
theorem init_time_dt_steps (t0 dt : Double) (ts : Int)
    (h1 : Double.lt (Double.finite 0) dt = true) (h2 : 0 < wrap_int ts) :
    init_time (some ⟨some t0, none, some dt, some ts⟩)
      = Except.ok (some ⟨some t0,
          some (Double.add t0 (Double.mul (Double.of_int (wrap_int ts)) dt)),
          some dt, some (wrap_int ts)⟩) := by
  simp [init_time, num_valid, is_param_valid, json_get, json_get_int, assert,
    bind, Except.bind, pure, Except.pure, h1, h2]

/-- With all three values given and no disagreement found, `init_time` stores
them, the number of steps narrowed to `int`. -/
theorem init_time_three_ok (t0 tend dt : Double) (ts : Int)
    (h : disagree t0 tend dt (wrap_int ts) = false) :
    init_time (some ⟨some t0, some tend, some dt, some ts⟩)
      = Except.ok (some ⟨some t0, some tend, some dt, some (wrap_int ts)⟩) := by
  simp [init_time, num_valid, is_param_valid, json_get, json_get_int,
    bind, Except.bind, pure, Except.pure, h]

/-- With all three values given and a disagreement found, `init_time` throws. -/
theorem init_time_three_error (t0 tend dt : Double) (ts : Int)
    (h : disagree t0 tend dt (wrap_int ts) = true) :
    init_time (some ⟨some t0, some tend, some dt, some ts⟩)
      = Except.error exactly_two_error := by
  simp [init_time, num_valid, is_param_valid, json_get, json_get_int,
    bind, Except.bind, pure, Except.pure, throw, throwThe, MonadExceptOf.throw, h]

/-- Narrowing: `time_steps = 2^32 + 4` is held as the `int` 4, with which
`0 + 0.25 * 4 - 1` is `0`; the three values pass the test and 4 is stored. -/
theorem init_time_narrowed_three :
    init_time (some ⟨some (Double.finite 0), some (Double.finite 1), some (Double.finite (1 / 4)),
        some (2 ^ 32 + 4)⟩)
      = Except.ok (some ⟨some (Double.finite 0), some (Double.finite 1),
          some (Double.finite (1 / 4)), some 4⟩) := by
  have hw : wrap_int (2 ^ 32 + 4) = 4 := by norm_num [wrap_int]
  have h := init_time_three_ok (Double.finite 0) (Double.finite 1) (Double.finite (1 / 4))
    (2 ^ 32 + 4)
  rw [hw] at h
  apply h
  simp only [disagree, Double.of_int, Int.cast_ofNat]
  rw [Double.of_rat_four, Double.mul_quarter_four, Double.add_zero_one, Double.sub_one_one]
  simp only [tolerance, Double.lt, Double.abs]
  norm_num

/-- Out of range: with `t0 = 0`, `tend = 1e10`, `dt = 1` the quotient is `1e10`,
which no `int` holds, and nothing is stored. -/
theorem init_time_ten_billion :
    init_time (some ⟨some (Double.finite 0), some (Double.finite 10000000000),
        some (Double.finite 1), none⟩)
      = Except.error Failure.undefined_conversion := by
  apply init_time_tend_dt_undefined
  · simp [Double.lt]
  · simp [Double.lt]
  · rw [Double.sub_ten_billion_zero, Double.div_ten_billion_one]
    simp [Double.ceil, Double.to_int, INT_MAX, INT_MIN]

/-- Rounding: with `t0 = 0`, `dt = 0.1`, `time_steps = 99999`, `tend = 9999.9` the
double `0.1 * 99999` is one unit in the last place above the double `9999.9`,
the difference `2^-39` exceeds `1e-12`, and `init_time` throws. -/
theorem init_time_rounded_three :
    init_time (some ⟨some (Double.finite 0), some (Double.of_rat (99999 / 10)),
        some (Double.of_rat (1 / 10)), some 99999⟩)
      = Except.error exactly_two_error := by
  have hw : wrap_int 99999 = 99999 := by norm_num [wrap_int]
  have h := init_time_three_error (Double.finite 0) (Double.of_rat (99999 / 10))
    (Double.of_rat (1 / 10)) 99999
  rw [hw] at h
  apply h
  simp only [disagree, Double.of_int, Int.cast_ofNat]
  rw [Double.of_rat_big_tend, Double.of_rat_tenth, Double.of_rat_many, Double.mul_tenth_many,
    Double.add_zero_product, Double.sub_product_tend]
  simp only [tolerance, Double.lt, Double.abs]
  norm_num [abs_of_pos]

/-- Rounding up: with `t0 = 0.1`, `tend = 0.4`, `dt = 0.1` the double difference is
`0.30000000000000004`, the double quotient `3.0000000000000004`, and 4 steps
are stored. -/
theorem init_time_tenths :
    init_time (some ⟨some (Double.of_rat (1 / 10)), some (Double.of_rat (4 / 10)),
        some (Double.of_rat (1 / 10)), none⟩)
      = Except.ok (some ⟨some (Double.of_rat (1 / 10)), some (Double.of_rat (4 / 10)),
          some (Double.of_rat (1 / 10)), some 4⟩) := by
  apply init_time_tend_dt
  · rw [Double.of_rat_tenth, Double.of_rat_four_tenths]
    simp only [Double.lt]
    norm_num
  · rw [Double.of_rat_tenth]
    simp only [Double.lt]
    norm_num
  · rw [Double.of_rat_tenth, Double.of_rat_four_tenths, Double.sub_four_tenths_tenth,
      Double.div_three_tenths_tenth]
    have hc : ⌈(6755399441055745 / 2251799813685248 : ℚ)⌉ = 4 := by
      rw [Int.ceil_eq_iff]
      constructor <;> norm_num
    simp [Double.ceil, Double.to_int, hc, INT_MAX, INT_MIN]
  · norm_num

/-- The stored step is a rounded quotient: with `t0 = 0`, `tend = 1`,
`time_steps = 3` the step stored is the double below one third. -/
theorem init_time_third :
    init_time (some ⟨some (Double.finite 0), some (Double.finite 1), none, some 3⟩)
      = Except.ok (some ⟨some (Double.finite 0), some (Double.finite 1),
          some (Double.finite (6004799503160661 / 18014398509481984)), some 3⟩) := by
  have hw : wrap_int 3 = 3 := by norm_num [wrap_int]
  have hd : Double.div (Double.sub (Double.finite 1) (Double.finite 0)) (Double.of_int 3)
      = Double.finite (6004799503160661 / 18014398509481984) := by
    simp only [Double.of_int, Int.cast_ofNat]
    rw [Double.sub_one_zero, Double.of_rat_three, Double.div_one_three]
  have h := init_time_tend_steps (Double.finite 0) (Double.finite 1) 3
  rw [hw, hd] at h
  apply h
  · simp [Double.lt]
  · norm_num
  · simp only [Double.lt]
    norm_num

/-- The stored end time is a rounded sum: with `t0 = 0`, `dt = 0.1`,
`time_steps = 3` the end time stored is the double `0.30000000000000004`. -/
theorem init_time_three_tenths :
    init_time (some ⟨some (Double.finite 0), none, some (Double.of_rat (1 / 10)), some 3⟩)
      = Except.ok (some ⟨some (Double.finite 0),
          some (Double.finite (1351079888211149 / 4503599627370496)),
          some (Double.of_rat (1 / 10)), some 3⟩) := by
  have hw : wrap_int 3 = 3 := by norm_num [wrap_int]
  have hd : Double.add (Double.finite 0) (Double.mul (Double.of_int 3) (Double.of_rat (1 / 10)))
      = Double.finite (1351079888211149 / 4503599627370496) := by
    simp only [Double.of_int, Int.cast_ofNat]
    rw [Double.of_rat_tenth, Double.of_rat_three, Double.mul_three_tenth,
      Double.add_zero_three_tenths]
  have h := init_time_dt_steps (Double.finite 0) (Double.of_rat (1 / 10)) 3
  rw [hw, hd] at h
  apply h
  · rw [Double.of_rat_tenth]
    simp only [Double.lt]
    norm_num
  · norm_num

/-- Narrowing of a given number of steps: with `t0 = 0`, `dt = 0.25`,
`time_steps = 2^32 + 4` the `int` held is 4, and 4 steps and `tend = 1` are
stored. -/
theorem init_time_narrowed_steps :
    init_time (some ⟨some (Double.finite 0), none, some (Double.finite (1 / 4)),
        some (2 ^ 32 + 4)⟩)
      = Except.ok (some ⟨some (Double.finite 0), some (Double.finite 1),
          some (Double.finite (1 / 4)), some 4⟩) := by
  have hw : wrap_int (2 ^ 32 + 4) = 4 := by norm_num [wrap_int]
  have hd : Double.add (Double.finite 0) (Double.mul (Double.of_int 4) (Double.finite (1 / 4)))
      = Double.finite 1 := by
    simp only [Double.of_int, Int.cast_ofNat]
    rw [Double.of_rat_four, Double.mul_four_quarter, Double.add_zero_one]
  have h := init_time_dt_steps (Double.finite 0) (Double.finite (1 / 4)) (2 ^ 32 + 4)
  rw [hw, hd] at h
  apply h
  · simp only [Double.lt]
    norm_num
  · norm_num

/-- The test of `init_time` on `t0 = 0`, `tend = 1`, `dt = 0.25` and 4 steps finds
no disagreement. -/
theorem disagree_quarter :
    disagree (Double.finite 0) (Double.finite 1) (Double.finite (1 / 4)) 4 = false := by
  simp only [disagree, Double.of_int, Int.cast_ofNat]
  rw [Double.of_rat_four, Double.mul_quarter_four, Double.add_zero_one, Double.sub_one_one]
  simp only [tolerance, Double.lt, Double.abs]
  norm_num

/-- The double quotient `(1 - 0) / 3` is positive. -/
theorem lt_zero_third :
    Double.lt (Double.finite 0)
      (Double.div (Double.sub (Double.finite 1) (Double.finite 0)) (Double.of_int 3)) = true := by
  simp only [Double.of_int, Int.cast_ofNat]
  rw [Double.sub_one_zero, Double.of_rat_three, Double.div_one_three]
  simp only [Double.lt]
  norm_num

/-- The ceiling of a double that lies in the range of `int` converts to
itself. -/
theorem to_int_ceil (q : ℚ) (h1 : INT_MIN ≤ ⌈q⌉) (h2 : ⌈q⌉ ≤ INT_MAX) :
    (Double.ceil (Double.finite q)).to_int = some ⌈q⌉ := by
  simp [Double.ceil, Double.to_int, h1, h2]

/-- C7, as it stands, fails on the `double` and `int` of the code.  (a) With
`t0 = 0`, `tend = 1`, `dt = 0.25`, `time_steps = 2^32 + 4` all three are given and
`|t0 + dt * time_steps - tend| > 1e-12`, yet `init_time` does not fail: the `int`
holds 4, and 4 is stored in place of the given value.  (b) With `t0 = 0`,
`tend = 1e10`, `dt = 1` exactly two are given, `tend > t0` and `dt > 0`, yet
`init_time` fails: `int(ceil(1e10))` has no value.  (c) With `t0 = 0`, `dt = 0.1`,
`time_steps = 99999`, `tend = 9999.9` the three agree within `1e-12`, as decimals
and as the doubles they are read as, yet `init_time` throws: the rounded product
is `2^-39` above `tend`. -/
theorem init_time_fails_iff_refuted :
    (|(0 : ℚ) + 1 / 4 * ((2 ^ 32 + 4 : Int) : ℚ) - 1| > 1 / 10 ^ 12
        ∧ init_time (some ⟨some (Double.finite 0), some (Double.finite 1),
              some (Double.finite (1 / 4)), some (2 ^ 32 + 4)⟩)
            = Except.ok (some ⟨some (Double.finite 0), some (Double.finite 1),
              some (Double.finite (1 / 4)), some 4⟩)
        ∧ init_time (some ⟨some (Double.finite 0), some (Double.finite 1),
              some (Double.finite (1 / 4)), some (2 ^ 32 + 4)⟩)
            ≠ Except.error exactly_two_error)
      ∧ (Double.lt (Double.finite 0) (Double.finite 10000000000) = true
        ∧ Double.lt (Double.finite 0) (Double.finite 1) = true
        ∧ init_time (some ⟨some (Double.finite 0), some (Double.finite 10000000000),
              some (Double.finite 1), none⟩)
            = Except.error Failure.undefined_conversion)
      ∧ (|(0 : ℚ) + 1 / 10 * 99999 - 99999 / 10| ≤ 1 / 10 ^ 12
        ∧ Double.of_rat (1 / 10) = Double.finite (3602879701896397 / 36028797018963968)
        ∧ Double.of_rat (99999 / 10) = Double.finite (5497503163298611 / 549755813888)
        ∧ |(0 : ℚ) + 3602879701896397 / 36028797018963968 * 99999
            - 5497503163298611 / 549755813888| ≤ 1 / 10 ^ 12
        ∧ init_time (some ⟨some (Double.finite 0), some (Double.of_rat (99999 / 10)),
              some (Double.of_rat (1 / 10)), some 99999⟩)
            = Except.error exactly_two_error) := by
  refine ⟨⟨?_, init_time_narrowed_three, ?_⟩, ⟨?_, ?_, init_time_ten_billion⟩,
    ⟨?_, Double.of_rat_tenth, Double.of_rat_big_tend, ?_, init_time_rounded_three⟩⟩
  · norm_num [abs_of_pos]
  · rw [init_time_narrowed_three]
    simp
  · simp [Double.lt]
  · simp [Double.lt]
  · norm_num
  · rw [abs_le]
    constructor <;> norm_num

/-- C7, amended. When the "time" section is present and `t0` is a number,
`init_time` fails with "Exactly two of (tend, dt, time_steps) must be
specified" if and only if fewer than two of the three are valid, or all three
are given and `abs(t0 + dt * time_steps - tend) > 1e-12` as the code evaluates
it: in `double` arithmetic, with `time_steps` narrowed to a 32-bit `int`.  With
exactly two given, `tend > t0`, `dt > 0` and `0 < time_steps <= INT_MAX`, it does
not fail provided that the ceiling of the double quotient `(tend - t0) / dt`
(when `tend` and `dt` are given) is a positive `int` and that the double quotient
`(tend - t0) / time_steps` (when `tend` and `time_steps` are given) is positive.
With all three given and no disagreement found, it succeeds and stores `tend`
and `dt` unchanged and `time_steps` narrowed to `int`, which is the given value
when that is an `int`.  With `t0` null the conversion of `t0` fails first, and
without a "time" section the method returns at once. -/
theorem init_time_fails_iff (t0 : Double) (tend dt : Option Double) (ts : Option Int) :
    (init_time (some ⟨some t0, tend, dt, ts⟩) = Except.error exactly_two_error
        ↔ (num_valid ⟨some t0, tend, dt, ts⟩ < 2
            ∨ ∃ tend1 dt1 ts1, tend = some tend1 ∧ dt = some dt1 ∧ ts = some ts1
                ∧ disagree t0 tend1 dt1 (wrap_int ts1) = true))
      ∧ (num_valid ⟨some t0, tend, dt, ts⟩ = 2
          → (∀ tend1, tend = some tend1 → Double.lt t0 tend1 = true)
          → (∀ dt1, dt = some dt1 → Double.lt (Double.finite 0) dt1 = true)
          → (∀ ts1, ts = some ts1 → 0 < ts1 ∧ ts1 ≤ INT_MAX)
          → (∀ tend1 dt1, tend = some tend1 → dt = some dt1 →
              ∃ n, (Double.ceil (Double.div (Double.sub tend1 t0) dt1)).to_int = some n ∧ 0 < n)
          → (∀ tend1 ts1, tend = some tend1 → ts = some ts1 →
              Double.lt (Double.finite 0)
                (Double.div (Double.sub tend1 t0) (Double.of_int ts1)) = true)
          → ∃ r, init_time (some ⟨some t0, tend, dt, ts⟩) = Except.ok (some r))
      ∧ (∀ tend1 dt1 ts1, tend = some tend1 → dt = some dt1 → ts = some ts1
          → disagree t0 tend1 dt1 (wrap_int ts1) = false
          → init_time (some ⟨some t0, tend, dt, ts⟩)
                = Except.ok (some ⟨some t0, tend, dt, some (wrap_int ts1)⟩)
              ∧ (INT_MIN ≤ ts1 → ts1 ≤ INT_MAX
                → init_time (some ⟨some t0, tend, dt, ts⟩)
                    = Except.ok (some ⟨some t0, tend, dt, ts⟩)))
      ∧ init_time (some ⟨none, tend, dt, ts⟩) = Except.error Failure.json_type_error
      ∧ init_time none = Except.ok none := by
  refine ⟨init_time_error_iff t0 tend dt ts, ?_, ?_, init_time_null_t0 tend dt ts, rfl⟩
  · intro h2 htend hdt hts hq hd
    rcases tend with _ | tend <;> rcases dt with _ | dt <;> rcases ts with _ | ts <;>
      simp [num_valid, is_param_valid] at h2
    · have hr := hts ts rfl
      have hw : wrap_int ts = ts :=
        wrap_int_of_range ts (by simp only [INT_MIN]; omega) hr.2
      have h := init_time_dt_steps t0 dt ts (hdt dt rfl) (by rw [hw]; exact hr.1)
      exact ⟨_, h⟩
    · have hr := hts ts rfl
      have hw : wrap_int ts = ts :=
        wrap_int_of_range ts (by simp only [INT_MIN]; omega) hr.2
      have h := init_time_tend_steps t0 tend ts (htend tend rfl) (by rw [hw]; exact hr.1)
        (by rw [hw]; exact hd tend ts rfl rfl)
      exact ⟨_, h⟩
    · obtain ⟨n, hn, hpos⟩ := hq tend dt rfl rfl
      exact ⟨_, init_time_tend_dt t0 tend dt n (htend tend rfl) (hdt dt rfl) hn hpos⟩
  · intro tend1 dt1 ts1 h1 h2 h3 hdis
    subst h1 h2 h3
    refine ⟨init_time_three_ok t0 tend1 dt1 ts1 hdis, ?_⟩
    intro hlo hhi
    have h := init_time_three_ok t0 tend1 dt1 ts1 hdis
    rw [wrap_int_of_range ts1 hlo hhi] at h
    exact h

/-- C7, amended, at concrete sections: `tend = 1` with 3 steps completes;
`tend = 1`, `dt = 0.25`, 4 steps agree and are stored unchanged; `tend = 1` alone is
the error. -/
theorem init_time_fails_iff_witness :
    (∃ r, init_time (some ⟨some (Double.finite 0), some (Double.finite 1), none, some 3⟩)
        = Except.ok (some r))
      ∧ init_time (some ⟨some (Double.finite 0), some (Double.finite 1),
            some (Double.finite (1 / 4)), some 4⟩)
          = Except.ok (some ⟨some (Double.finite 0), some (Double.finite 1),
            some (Double.finite (1 / 4)), some 4⟩)
      ∧ init_time (some ⟨some (Double.finite 0), some (Double.finite 1), none, none⟩)
          = Except.error exactly_two_error :=
  ⟨(init_time_fails_iff (Double.finite 0) (some (Double.finite 1)) none (some 3)).2.1
      (by simp [num_valid, is_param_valid])
      (by intro tend1 h; simp only [Option.some.injEq] at h; subst h; simp [Double.lt])
      (by intro dt1 h; simp at h)
      (by intro ts1 h; simp only [Option.some.injEq] at h; subst h; simp [INT_MAX])
      (by intro tend1 dt1 _ h; simp at h)
      (by
        intro tend1 ts1 h1 h2
        simp only [Option.some.injEq] at h1 h2
        subst h1 h2
        exact lt_zero_third),
   ((init_time_fails_iff (Double.finite 0) (some (Double.finite 1))
      (some (Double.finite (1 / 4))) (some 4)).2.2.1 (Double.finite 1) (Double.finite (1 / 4)) 4
      rfl rfl rfl
      (by
        have hw : wrap_int 4 = 4 := by norm_num [wrap_int]
        rw [hw]
        exact disagree_quarter)).2 (by simp [INT_MIN]) (by simp [INT_MAX]),
   (init_time_fails_iff (Double.finite 0) (some (Double.finite 1)) none none).1.mpr
      (Or.inl (by simp [num_valid, is_param_valid]))⟩

end polyfem

/-! # Further properties -/

namespace polyfem

namespace solver

/-! ## Two passes against one -/

/-- The single pass visits the first stage last, as the two-pass loop does, but
hands every stage the same `x`. -/
theorem naive_apply_jacobian_cons {V : Type} (p : Parameterization V)
    (rest : List (Parameterization V)) (x g : V) :
    naive_apply_jacobian (CompositeParameterization.mk (p :: rest)) x g
      = p.apply_jacobian (naive_apply_jacobian (CompositeParameterization.mk rest) x g) x := by
  simp [naive_apply_jacobian]

/-- On a chain whose stages ignore the point at which they are asked to pull a
gradient back, the single pass and the two-pass loop return the same vector. -/
theorem naive_eq_of_linear {V : Type} (ps : List (Parameterization V))
    (h : ∀ p ∈ ps, ∀ g x y : V, p.apply_jacobian g x = p.apply_jacobian g y) (x g : V) :
    naive_apply_jacobian (CompositeParameterization.mk ps) x g
      = (CompositeParameterization.mk ps).apply_jacobian x g := by
  suffices H : ∀ x0 x : V, ps.foldr (fun p gradv => p.apply_jacobian gradv x0) g
      = (CompositeParameterization.mk ps).apply_jacobian x g from H x x
  induction ps with
  | nil =>
    intro x0 x
    simp [CompositeParameterization.apply_jacobian_nil]
  | cons p rest ih =>
    intro x0 x
    rw [CompositeParameterization.apply_jacobian_cons, List.foldr_cons,
      ih (fun q hq => h q (List.mem_cons_of_mem p hq)) x0 (p.eval x)]
    exact h p (List.mem_cons_self p rest) _ x0 x

/-- Two one-dimensional vectors are equal only if their entries are. -/
theorem vec1_injective (a b : ℝ) (h : vec1 a = vec1 b) : a = b := by
  simp only [vec1, Sigma.mk.inj_iff, heq_eq_eq, true_and] at h
  exact congrFun h 0

/-- Both stages of the chain "double, then square" satisfy the contract. -/
theorem scale_square_stages :
    ∀ p ∈ [scaleStage 2, squareStage], SatisfiesContract p := by
  intro p hp
  simp only [List.mem_cons, List.mem_singleton, List.not_mem_nil, or_false] at hp
  rcases hp with rfl | rfl
  · exact scaleStage_contract 2
  · exact squareStage_contract

/-- The single pass on "double, then square" in dimension 1: the square stage is
asked at `a`, not at its own input `2 * a`. -/
theorem naive_scale_square (a b : ℝ) :
    naive_apply_jacobian (CompositeParameterization.mk [scaleStage 2, squareStage])
        (vec1 a) (vec1 b)
      = vec1 (2 * (2 * a * b)) := by
  simp [naive_apply_jacobian, scaleStage, squareStage, vec1]

/-- The two-pass loop on "double, then square" in dimension 1: the square stage
is asked at its own input `2 * a`. -/
theorem apply_jacobian_scale_square (a b : ℝ) :
    (CompositeParameterization.mk [scaleStage 2, squareStage]).apply_jacobian (vec1 a) (vec1 b)
      = vec1 (2 * (2 * (2 * a) * b)) := by
  rw [CompositeParameterization.apply_jacobian_cons, CompositeParameterization.apply_jacobian_cons,
    CompositeParameterization.apply_jacobian_nil]
  simp [scaleStage, squareStage, vec1]

/-- Whatever map and derivative describe the value of "double, then square" on
one-dimensional vectors, the single pass at `x = 1`, `g = 1` is not the
transposed Jacobian applied to `g`. -/
theorem naive_ne_transposed_jacobian
    (f : EuclideanSpace ℝ (Fin 1) → EuclideanSpace ℝ (Fin 1))
    (J : EuclideanSpace ℝ (Fin 1) →L[ℝ] EuclideanSpace ℝ (Fin 1))
    (hf : ∀ z : EuclideanSpace ℝ (Fin 1),
      (CompositeParameterization.mk [scaleStage 2, squareStage]).eval ⟨1, z⟩ = ⟨1, f z⟩)
    (hJ : HasFDerivAt f J (fun _ => 1)) :
    naive_apply_jacobian (CompositeParameterization.mk [scaleStage 2, squareStage])
        (vec1 1) (vec1 1)
      ≠ ⟨1, ContinuousLinearMap.adjoint J (fun _ => 1)⟩ := by
  obtain ⟨m, f0, J0, h0⟩ := chain_contract_of_stages _ scale_square_stages 1
  have hm : m = 1 := (congrArg Sigma.fst ((hf 0).symm.trans (h0 0).1)).symm
  subst hm
  have hff : f0 = f := by
    funext z
    have e := (h0 z).1.symm.trans (hf z)
    simpa only [Sigma.mk.inj_iff, heq_eq_eq, true_and] using e
  subst hff
  have hJJ : J0 (fun _ => 1) = J := (h0 (fun _ => 1)).2.1.unique hJ
  have hap : (CompositeParameterization.mk [scaleStage 2, squareStage]).apply_jacobian
      (vec1 1) (vec1 1) = ⟨1, ContinuousLinearMap.adjoint J (fun _ => 1)⟩ := by
    rw [← hJJ]
    exact (h0 (fun _ => 1)).2.2 (fun _ => 1)
  rw [← hap, naive_scale_square, apply_jacobian_scale_square]
  intro h
  have := vec1_injective _ _ h
  norm_num at this

/-- C11. The two-pass structure of `apply_jacobian` is necessary.  The chain
"double every entry, then square every entry" has two stages that satisfy the
contract, the second nonlinear; at `x = [1]`, `g = [1]` the single pass that
asks every stage at the original `x` returns `[4]` while
`CompositeParameterization::apply_jacobian` returns `[8]`, so the two differ,
and the single pass differs from the transposed Jacobian of the chain's `eval`
at `x` applied to `g`.  On every chain whose stages are all linear
(`apply_jacobian` does not depend on its `x` argument) the two coincide. -/
theorem two_pass_is_necessary :
    (∀ p ∈ [scaleStage 2, squareStage], SatisfiesContract p)
      ∧ naive_apply_jacobian (CompositeParameterization.mk [scaleStage 2, squareStage])
          (vec1 1) (vec1 1) = vec1 4
      ∧ (CompositeParameterization.mk [scaleStage 2, squareStage]).apply_jacobian
          (vec1 1) (vec1 1) = vec1 8
      ∧ naive_apply_jacobian (CompositeParameterization.mk [scaleStage 2, squareStage])
          (vec1 1) (vec1 1)
        ≠ (CompositeParameterization.mk [scaleStage 2, squareStage]).apply_jacobian
          (vec1 1) (vec1 1)
      ∧ (∀ (f : EuclideanSpace ℝ (Fin 1) → EuclideanSpace ℝ (Fin 1))
          (J : EuclideanSpace ℝ (Fin 1) →L[ℝ] EuclideanSpace ℝ (Fin 1)),
          (∀ z : EuclideanSpace ℝ (Fin 1),
            (CompositeParameterization.mk [scaleStage 2, squareStage]).eval ⟨1, z⟩ = ⟨1, f z⟩)
          → HasFDerivAt f J (fun _ => 1)
          → naive_apply_jacobian (CompositeParameterization.mk [scaleStage 2, squareStage])
              (vec1 1) (vec1 1)
            ≠ ⟨1, ContinuousLinearMap.adjoint J (fun _ => 1)⟩)
      ∧ (∀ (V : Type) (c : CompositeParameterization V),
          (∀ p ∈ c.parameterizations_, ∀ g x y : V, p.apply_jacobian g x = p.apply_jacobian g y)
          → ∀ x g : V, naive_apply_jacobian c x g = c.apply_jacobian x g) := by
  have h4 : naive_apply_jacobian (CompositeParameterization.mk [scaleStage 2, squareStage])
      (vec1 1) (vec1 1) = vec1 4 := by
    rw [naive_scale_square]
    norm_num
  have h8 : (CompositeParameterization.mk [scaleStage 2, squareStage]).apply_jacobian
      (vec1 1) (vec1 1) = vec1 8 := by
    rw [apply_jacobian_scale_square]
    norm_num
  refine ⟨scale_square_stages, h4, h8, ?_, naive_ne_transposed_jacobian, ?_⟩
  · rw [h4, h8]
    intro h
    have := vec1_injective _ _ h
    norm_num at this
  · intro V c h x g
    exact naive_eq_of_linear c.parameterizations_ h x g

/-- C11 on the linear chain "double, then triple": its stages ignore `x`, and the
single pass agrees with the two-pass loop at `x = [1]`, `g = [1]`. -/
theorem two_pass_is_necessary_witness :
    (∀ p ∈ (CompositeParameterization.mk [scaleStage 2, scaleStage 3]).parameterizations_,
        ∀ g x y : RVec, p.apply_jacobian g x = p.apply_jacobian g y)
      ∧ naive_apply_jacobian (CompositeParameterization.mk [scaleStage 2, scaleStage 3])
          (vec1 1) (vec1 1)
        = (CompositeParameterization.mk [scaleStage 2, scaleStage 3]).apply_jacobian
          (vec1 1) (vec1 1) :=
  have h : ∀ p ∈ (CompositeParameterization.mk [scaleStage 2, scaleStage 3]).parameterizations_,
      ∀ g x y : RVec, p.apply_jacobian g x = p.apply_jacobian g y := by
    intro p hp g x y
    simp only [List.mem_cons, List.mem_singleton, List.not_mem_nil, or_false] at hp
    rcases hp with rfl | rfl <;> rfl
  ⟨h, two_pass_is_necessary.2.2.2.2.2 RVec
    (CompositeParameterization.mk [scaleStage 2, scaleStage 3]) h (vec1 1) (vec1 1)⟩

end solver

/-! ## `State::init_time`: the completed triple -/

/-- C12, as it stands, fails on the `double` and `int` of the code.  (a) With
`t0 = 0.1`, `tend = 0.4`, `dt = 0.1` the code stores 4 steps, while
`ceil((tend - t0) / dt)` is 3 and 3 steps already reach `tend`, for the decimals
and for the doubles they are read as.  (b) With `t0 = 0`, `tend = 1e10`, `dt = 1`
nothing is stored: `int(ceil(1e10))` has no value.  (c) With `t0 = 0`, `tend = 1`,
3 steps the stored `dt` is a rounded quotient and `t0 + dt * 3` is not `tend`.
(d) With `t0 = 0`, `dt = 0.1`, 3 steps the stored `tend` is a rounded sum and is not
`t0 + 3 * dt`.  (e) With `t0 = 0`, `dt = 0.25`, `time_steps = 2^32 + 4` the number of
steps stored is 4, not the given value. -/
theorem init_time_completes_triple_refuted :
    (init_time (some ⟨some (Double.of_rat (1 / 10)), some (Double.of_rat (4 / 10)),
            some (Double.of_rat (1 / 10)), none⟩)
          = Except.ok (some ⟨some (Double.of_rat (1 / 10)), some (Double.of_rat (4 / 10)),
            some (Double.of_rat (1 / 10)), some 4⟩)
        ∧ ⌈((4 / 10 : ℚ) - 1 / 10) / (1 / 10)⌉ = 3
        ∧ (1 / 10 : ℚ) + 3 * (1 / 10) ≥ 4 / 10
        ∧ Double.of_rat (1 / 10) = Double.finite (3602879701896397 / 36028797018963968)
        ∧ Double.of_rat (4 / 10) = Double.finite (3602879701896397 / 9007199254740992)
        ∧ ⌈((3602879701896397 / 9007199254740992 : ℚ) - 3602879701896397 / 36028797018963968)
            / (3602879701896397 / 36028797018963968)⌉ = 3
        ∧ (3602879701896397 / 36028797018963968 : ℚ)
            + 3 * (3602879701896397 / 36028797018963968)
          ≥ 3602879701896397 / 9007199254740992)
      ∧ (Double.lt (Double.finite 0) (Double.finite 10000000000) = true
        ∧ Double.lt (Double.finite 0) (Double.finite 1) = true
        ∧ init_time (some ⟨some (Double.finite 0), some (Double.finite 10000000000),
              some (Double.finite 1), none⟩)
            = Except.error Failure.undefined_conversion)
      ∧ (init_time (some ⟨some (Double.finite 0), some (Double.finite 1), none, some 3⟩)
            = Except.ok (some ⟨some (Double.finite 0), some (Double.finite 1),
              some (Double.finite (6004799503160661 / 18014398509481984)), some 3⟩)
        ∧ (0 : ℚ) + 6004799503160661 / 18014398509481984 * 3 ≠ 1)
      ∧ (init_time (some ⟨some (Double.finite 0), none, some (Double.of_rat (1 / 10)), some 3⟩)
            = Except.ok (some ⟨some (Double.finite 0),
              some (Double.finite (1351079888211149 / 4503599627370496)),
              some (Double.of_rat (1 / 10)), some 3⟩)
        ∧ (1351079888211149 / 4503599627370496 : ℚ)
            ≠ 0 + 3 * (3602879701896397 / 36028797018963968))
      ∧ init_time (some ⟨some (Double.finite 0), none, some (Double.finite (1 / 4)),
            some (2 ^ 32 + 4)⟩)
          = Except.ok (some ⟨some (Double.finite 0), some (Double.finite 1),
            some (Double.finite (1 / 4)), some 4⟩) := by
  refine ⟨⟨init_time_tenths, ?_, ?_, Double.of_rat_tenth, Double.of_rat_four_tenths, ?_, ?_⟩,
    ⟨?_, ?_, init_time_ten_billion⟩, ⟨init_time_third, ?_⟩, ⟨init_time_three_tenths, ?_⟩,
    init_time_narrowed_steps⟩
  · rw [Int.ceil_eq_iff]
    constructor <;> norm_num
  · norm_num
  · rw [Int.ceil_eq_iff]
    constructor <;> norm_num
  · norm_num
  · simp [Double.lt]
  · simp [Double.lt]
  · norm_num
  · norm_num

/-- C12, amended. With exactly two of (tend, dt, time_steps) given and `t0` a
number, `init_time` completes the triple in `double` arithmetic, with
`time_steps` a 32-bit `int`.  Given `tend > t0` and `dt > 0`: when the double
quotient `q` of the double difference `tend - t0` by `dt` has a ceiling between 1
and `INT_MAX`, the steps stored are `ceil(q)`, the least integer `n >= q`.  Given
`tend > t0` and `0 < time_steps <= INT_MAX`: when the double quotient of
`tend - t0` by `time_steps` is positive, it is the `dt` stored.  Given `dt > 0`
and `0 < time_steps <= INT_MAX`: the `tend` stored is the double sum of `t0` and
the double product `time_steps * dt`.  The two given values are stored
unchanged in each case. -/
theorem init_time_completes_triple (t0 tend dt : Double) (time_steps : Int) (q : ℚ) :
    (Double.lt t0 tend = true → Double.lt (Double.finite 0) dt = true
        → Double.div (Double.sub tend t0) dt = Double.finite q
        → 0 < ⌈q⌉ → ⌈q⌉ ≤ INT_MAX
        → init_time (some ⟨some t0, some tend, some dt, none⟩)
              = Except.ok (some ⟨some t0, some tend, some dt, some ⌈q⌉⟩)
            ∧ ∀ n : Int, q ≤ n → ⌈q⌉ ≤ n)
      ∧ (Double.lt t0 tend = true → 0 < time_steps → time_steps ≤ INT_MAX
        → Double.lt (Double.finite 0)
            (Double.div (Double.sub tend t0) (Double.of_int time_steps)) = true
        → init_time (some ⟨some t0, some tend, none, some time_steps⟩)
            = Except.ok (some ⟨some t0, some tend,
                some (Double.div (Double.sub tend t0) (Double.of_int time_steps)),
                some time_steps⟩))
      ∧ (Double.lt (Double.finite 0) dt = true → 0 < time_steps → time_steps ≤ INT_MAX
        → init_time (some ⟨some t0, none, some dt, some time_steps⟩)
            = Except.ok (some ⟨some t0,
                some (Double.add t0 (Double.mul (Double.of_int time_steps) dt)),
                some dt, some time_steps⟩)) := by
  refine ⟨?_, ?_, ?_⟩
  · intro h1 h2 hq hpos hmax
    refine ⟨?_, fun n hn => Int.ceil_le.mpr hn⟩
    apply init_time_tend_dt t0 tend dt ⌈q⌉ h1 h2 _ hpos
    rw [hq]
    exact to_int_ceil q (by simp only [INT_MIN]; omega) hmax
  · intro h1 hpos hmax hd
    have hw : wrap_int time_steps = time_steps :=
      wrap_int_of_range time_steps (by simp only [INT_MIN]; omega) hmax
    have h := init_time_tend_steps t0 tend time_steps h1 (by rw [hw]; exact hpos)
      (by rw [hw]; exact hd)
    rw [hw] at h
    exact h
  · intro h2 hpos hmax
    have hw : wrap_int time_steps = time_steps :=
      wrap_int_of_range time_steps (by simp only [INT_MIN]; omega) hmax
    have h := init_time_dt_steps t0 dt time_steps h2 (by rw [hw]; exact hpos)
    rw [hw] at h
    exact h

/-- C12, amended, at `t0 = 0`: `tend = 1` with `dt = 0.25` stores 4 steps; `tend = 1`
with 3 steps stores the double quotient; `dt = 0.25` with 4 steps stores the double
sum. -/
theorem init_time_completes_triple_witness :
    (init_time (some ⟨some (Double.finite 0), some (Double.finite 1),
            some (Double.finite (1 / 4)), none⟩)
          = Except.ok (some ⟨some (Double.finite 0), some (Double.finite 1),
            some (Double.finite (1 / 4)), some ⌈(4 : ℚ)⌉⟩)
        ∧ ∀ n : Int, (4 : ℚ) ≤ n → ⌈(4 : ℚ)⌉ ≤ n)
      ∧ init_time (some ⟨some (Double.finite 0), some (Double.finite 1), none, some 3⟩)
          = Except.ok (some ⟨some (Double.finite 0), some (Double.finite 1),
            some (Double.div (Double.sub (Double.finite 1) (Double.finite 0)) (Double.of_int 3)),
            some 3⟩)
      ∧ init_time (some ⟨some (Double.finite 0), none, some (Double.finite (1 / 4)), some 4⟩)
          = Except.ok (some ⟨some (Double.finite 0),
            some (Double.add (Double.finite 0)
              (Double.mul (Double.of_int 4) (Double.finite (1 / 4)))),
            some (Double.finite (1 / 4)), some 4⟩) :=
  ⟨(init_time_completes_triple (Double.finite 0) (Double.finite 1) (Double.finite (1 / 4)) 4
      4).1 (by simp [Double.lt]) (by simp [Double.lt])
      (by rw [Double.sub_one_zero, Double.div_one_quarter])
      (by norm_num) (by simp [INT_MAX]),
   (init_time_completes_triple (Double.finite 0) (Double.finite 1) (Double.finite (1 / 4)) 3
      4).2.1 (by simp [Double.lt]) (by norm_num) (by simp [INT_MAX]) lt_zero_third,
   (init_time_completes_triple (Double.finite 0) (Double.finite 1) (Double.finite (1 / 4)) 4
      4).2.2 (by simp [Double.lt]) (by norm_num) (by simp [INT_MAX])⟩


/-! ## The contact block of `State::init` -/

/-- C13. After the contact block of `State::init`, for every input: the stored
`friction_iterations` is non-negative, and it is 0 if and only if
`friction_coefficient` is 0.  With contact disabled both are set to 0; with
contact enabled, `friction_iterations == 0` forces the coefficient to 0, a zero
coefficient forces the iterations to 0, a negative `friction_iterations` with a
non-zero coefficient becomes the maximum `int`, and a positive count with a
non-zero coefficient is left unchanged. -/
theorem init_contact_normalised (args : ContactArgs) :
    0 ≤ (init_contact args).friction_iterations
      ∧ ((init_contact args).friction_iterations = 0
          ↔ (init_contact args).friction_coefficient = 0)
      ∧ (init_contact args).enabled = args.enabled
      ∧ (args.enabled = false →
          (init_contact args).friction_iterations = 0
            ∧ (init_contact args).friction_coefficient = 0)
      ∧ (args.enabled = true → args.friction_iterations = 0 →
          (init_contact args).friction_iterations = 0
            ∧ (init_contact args).friction_coefficient = 0)
      ∧ (args.enabled = true → args.friction_coefficient = 0 →
          (init_contact args).friction_iterations = 0
            ∧ (init_contact args).friction_coefficient = 0)
      ∧ (args.enabled = true → args.friction_iterations < 0 → args.friction_coefficient ≠ 0 →
          (init_contact args).friction_iterations = INT_MAX
            ∧ (init_contact args).friction_coefficient = args.friction_coefficient)
      ∧ (args.enabled = true → 0 < args.friction_iterations → args.friction_coefficient ≠ 0 →
          init_contact args = args) := by
  rcases args with ⟨en, coef, it⟩
  by_cases h0 : it = 0 <;> by_cases hneg : it < 0 <;> by_cases hc : coef = 0 <;> cases en <;>
    simp [init_contact, INT_MAX, h0, hneg, hc] <;> omega

/-- C13 at four inputs: contact disabled; enabled with `-3` iterations and
coefficient `1/2`; enabled with 5 iterations and coefficient `1/2`; enabled with
5 iterations and coefficient 0. -/
theorem init_contact_normalised_witness :
    ((init_contact ⟨false, 1 / 2, 5⟩).friction_iterations = 0
        ∧ (init_contact ⟨false, 1 / 2, 5⟩).friction_coefficient = 0)
      ∧ ((init_contact ⟨true, 1 / 2, -3⟩).friction_iterations = INT_MAX
        ∧ (init_contact ⟨true, 1 / 2, -3⟩).friction_coefficient = 1 / 2)
      ∧ init_contact ⟨true, 1 / 2, 5⟩ = ⟨true, 1 / 2, 5⟩
      ∧ ((init_contact ⟨true, 0, 5⟩).friction_iterations = 0
        ∧ (init_contact ⟨true, 0, 5⟩).friction_coefficient = 0) :=
  ⟨(init_contact_normalised ⟨false, 1 / 2, 5⟩).2.2.2.1 rfl,
   (init_contact_normalised ⟨true, 1 / 2, -3⟩).2.2.2.2.2.2.1 rfl (by decide) (by norm_num),
   (init_contact_normalised ⟨true, 1 / 2, 5⟩).2.2.2.2.2.2.2 rfl (by decide) (by norm_num),
   (init_contact_normalised ⟨true, 0, 5⟩).2.2.2.2.2.1 rfl rfl⟩

end polyfem
